import Mathlib

/-!
Verification of the Git workflow automation script
(`git-workflow-automation.py`) of this repository.

The script is a thin orchestrator: each operation issues a sequence of
external `git` commands and at most one hosting-API call, with light string
processing in between.  We embed it shallowly: an `Env` supplies the outcome
(success flag, stdout, stderr) of every external command, each operation is a
pure Lean function from `Env` and its arguments to the list of observable
events it produces (commands issued, API calls made, lines printed, files
written) together with `some ()` for a normal return or `none` for a
`sys.exit(1)` mid-operation.  Python strings are modelled as `List Char`;
the string-processing helpers below mirror the exact Python primitives used
by the source (`strip`, `split('\x0A')`, `split()`, `startswith`, the `in`
substring test, and `int(...)`), restricted to the ASCII alphabet actually
exercised (the source language would additionally strip or match some
non-ASCII whitespace and digit characters; no claim here depends on those).
-/

/-- Python strings are modelled as lists of characters. -/
abbrev PyStr := List Char

/-- The whitespace characters stripped by the source language `strip()` and
split on by no-argument `split()` (ASCII subset). -/
def pySpace (c : Char) : Bool :=
  c = ' ' || c = '\x09' || c = '\x0A' || c = '\x0D' || c = '\x0B' || c = '\x0C'

/-- `s.strip()`: remove leading and trailing whitespace. -/
def pyStrip (s : PyStr) : PyStr :=
  ((s.dropWhile pySpace).reverse.dropWhile pySpace).reverse

/-- `s.split(sep)` for a one-character separator: split at every occurrence,
keeping empty pieces (always returns at least one piece). -/
def splitChar (c : Char) (s : PyStr) : List PyStr :=
  match s with
  | [] => [[]]
  | x :: xs =>
    match splitChar c xs with
    | [] => [[]]
    | r :: rs => if x = c then [] :: r :: rs else (x :: r) :: rs

/-- Split at every character satisfying `p`, keeping empty pieces. -/
def splitPred (p : Char → Bool) (s : PyStr) : List PyStr :=
  match s with
  | [] => [[]]
  | x :: xs =>
    match splitPred p xs with
    | [] => [[]]
    | r :: rs => if p x then [] :: r :: rs else (x :: r) :: rs

/-- No-argument `s.split()`: split on whitespace runs, discarding empties. -/
def pySplitWs (s : PyStr) : List PyStr :=
  (splitPred pySpace s).filter (fun t => !t.isEmpty)

/-- `s.startswith(c)` for a one-character prefix. -/
def startsWithChar (c : Char) : PyStr → Bool
  | [] => false
  | x :: _ => x = c

/-- The `in` substring test of the source language: `pyIn sub s` holds when
`sub` occurs contiguously inside `s`. -/
def pyIn (sub : PyStr) (s : PyStr) : Bool :=
  match s with
  | [] => sub.isEmpty
  | x :: xs => sub.isPrefixOf (x :: xs) || pyIn sub xs

/-- Numeric value of a digit string. -/
def digitsVal (s : PyStr) : Nat :=
  s.foldl (fun a c => a * 10 + (c.toNat - ('0').toNat)) 0

/-- `int(s)`: optional sign followed by a nonempty digit string, with
surrounding whitespace allowed; `none` models the `ValueError` raised
otherwise.  (Underscore digit grouping accepted by the source language is
not modelled; no input exercised contains it.) -/
def pyInt (s : PyStr) : Option Int :=
  match pyStrip s with
  | '+' :: rest =>
      if !rest.isEmpty && rest.all Char.isDigit then some (Int.ofNat (digitsVal rest)) else none
  | '-' :: rest =>
      if !rest.isEmpty && rest.all Char.isDigit then some (-(Int.ofNat (digitsVal rest))) else none
  | t =>
      if !t.isEmpty && t.all Char.isDigit then some (Int.ofNat (digitsVal t)) else none

/-- Observable events of a run: a `git` command issued (argument vector after
the `git` word), the create-pull-request API call (title, description,
repository, source ref, destination ref), a printed line, a file written. -/
inductive Event where
  | git (args : List PyStr)
  | aws (title description repo src dst : PyStr)
  | out (line : PyStr)
  | fileWrite (name content : PyStr)
deriving DecidableEq

/-- The external world: success flag, stdout and stderr of each git command,
the day count produced by the branch-age date arithmetic (`none` models a
parse failure; the wall-clock subtraction itself is not formalizable and is
abstracted to its result), which version-marker files exist, and the outcome
of the create-pull-request call and of the package manifest rewrite. -/
structure Env where
  gitOk : List PyStr → Bool
  gitOut : List PyStr → PyStr
  gitErr : List PyStr → PyStr
  pyDays : PyStr → Option Nat
  fileExists : PyStr → Bool
  prOk : Bool
  prId : PyStr
  prErr : PyStr
  pkgOk : Bool
  pkgErr : PyStr

/-- Rendering of the failed command vector in the error message: the source
prints the list repr of the failed argv — brackets, comma-space separators,
each item in single quotes.  (The repr of an item switches quote style only
when the item itself contains a quote; no argv built by the script does.) -/
def renderCmd (args : List PyStr) : PyStr :=
  (("[").toList) ++
    (List.intercalate ((", ").toList)
      (((("git").toList) :: args).map
        (fun a => (("\x27").toList) ++ a ++ (("\x27").toList)))) ++
  (("]").toList)

/-- `_run_git_command` up to its exception: emits the command; on failure
additionally emits the two error lines the method prints before raising
`SystemExit` (via `sys.exit(1)`).  `none` signals that `SystemExit` was
raised; the caller decides whether a bare `except` catches it. -/
def runGit (env : Env) (args : List PyStr) : List Event × Option PyStr :=
  if env.gitOk args then
    ([Event.git args], some (env.gitOut args))
  else
    ([Event.git args,
      Event.out ((("Git command failed: ").toList) ++ renderCmd args),
      Event.out ((("Error: ").toList) ++ env.gitErr args)], none)

/-- Run a git command in a context where its failure is fatal (no enclosing
bare `except`): on failure the whole operation exits with status 1. -/
def withGit {α : Type} (env : Env) (args : List PyStr)
    (k : PyStr → List Event × Option α) : List Event × Option α :=
  match runGit env args with
  | (t, none) => (t, none)
  | (t, some o) =>
    let r := k o
    (t ++ r.1, r.2)

/-- Prefix a printed line to a run fragment. -/
def emit {α : Type} (m : PyStr) (r : List Event × α) : List Event × α :=
  (Event.out m :: r.1, r.2)

/-- Exit status of the whole process for a dispatched operation: `1` when the
operation raised an uncaught `SystemExit`, `0` on normal return. -/
def exitCode : Option Unit → Nat
  | some _ => 0
  | none => 1

/-- The event is a git command. -/
def isGitEvent : Event → Bool
  | Event.git _ => true
  | _ => false

/-- The event is the create-pull-request API call. -/
def isAws : Event → Bool
  | Event.aws _ _ _ _ _ => true
  | _ => false

/-! ### The git command vocabulary of the script (argument vectors verbatim) -/

def revAbbrevCmd : List PyStr := [("rev-parse").toList, ("--abbrev-ref").toList, ("HEAD").toList]

def checkoutCmd (b : PyStr) : List PyStr := [("checkout").toList, b]

def pullCmd (b : PyStr) : List PyStr := [("pull").toList, ("origin").toList, b]

def checkoutBCmd (b : PyStr) : List PyStr := [("checkout").toList, ("-b").toList, b]

def pushUCmd (b : PyStr) : List PyStr := [("push").toList, ("-u").toList, ("origin").toList, b]

def pushCmd (b : PyStr) : List PyStr := [("push").toList, ("origin").toList, b]

def delLocalCmd (b : PyStr) : List PyStr := [("branch").toList, ("-d").toList, b]

def delRemoteCmd (b : PyStr) : List PyStr :=
  [("push").toList, ("origin").toList, ("--delete").toList, b]

def mergedCmd : List PyStr := [("branch").toList, ("--merged").toList, ("main").toList]

def statusCmd : List PyStr := [("status").toList, ("--porcelain").toList]

def logCmd : List PyStr := [("log").toList, ("origin/main..HEAD").toList, ("--oneline").toList]

def showCmd : List PyStr :=
  [("show").toList, ("-s").toList, ("--format=%ci").toList, ("HEAD").toList]

def lsFilesCmd : List PyStr := [("ls-files").toList, ("-s").toList]

def fetchCmd : List PyStr := [("fetch").toList, ("origin").toList]

def revParseOriginCmd (b : PyStr) : List PyStr :=
  [("rev-parse").toList, ("origin/").toList ++ b]

def addCmd : List PyStr := [("add").toList, (".").toList]

def commitCmd (v : PyStr) : List PyStr :=
  [("commit").toList, ("-m").toList, ("Bump version to ").toList ++ v]

/-! ### The automator object -/

/-- `_get_current_branch`: runs `git rev-parse --abbrev-ref HEAD` directly via
the subprocess module (no error printing); a failed process is caught and the
literal fallback value `main` is returned.  On success the stdout is stripped. -/
def getCurrentBranch (env : Env) : List Event × PyStr :=
  if env.gitOk revAbbrevCmd then
    ([Event.git revAbbrevCmd], pyStrip (env.gitOut revAbbrevCmd))
  else
    ([Event.git revAbbrevCmd], ("main").toList)

/-- The two fields of `GitWorkflowAutomator` the operations read. -/
structure Automator where
  repository_name : Option PyStr
  current_branch : PyStr
deriving DecidableEq

/-- `GitWorkflowAutomator.__init__`: stores the repository name and reads the
current branch once.  Total: construction never terminates the process. -/
def automatorInit (env : Env) (repo : Option PyStr) : List Event × Automator :=
  let r := getCurrentBranch env
  (r.1, { repository_name := repo, current_branch := r.2 })

/-! ### Branch creation and feature finishing -/

/-- `create_feature_branch`: checkout base, pull base, create
`feature/<name>`, push it with upstream tracking; every command failure is
fatal. -/
def create_feature_branch (env : Env) (feature_name base_branch : PyStr) :
    List Event × Option Unit :=
  emit ((("Creating feature branch: feature/").toList) ++ feature_name) <|
  withGit env (checkoutCmd base_branch) fun _ =>
  withGit env (pullCmd base_branch) fun _ =>
  let branch_name := (("feature/").toList) ++ feature_name
  withGit env (checkoutBCmd branch_name) fun _ =>
  withGit env (pushUCmd branch_name) fun _ =>
  ([Event.out ((("✅ Feature branch \x27").toList) ++ branch_name ++
      (("\x27 created and pushed to remote").toList)),
    Event.out (("🚀 You can now start working on your feature!").toList)], some ())

/-- `create_hotfix_branch`: identical flow to feature creation with the
`hotfix/` prefix. -/
def create_hotfix_branch (env : Env) (hotfix_name base_branch : PyStr) :
    List Event × Option Unit :=
  emit ((("Creating hotfix branch: hotfix/").toList) ++ hotfix_name) <|
  withGit env (checkoutCmd base_branch) fun _ =>
  withGit env (pullCmd base_branch) fun _ =>
  withGit env (checkoutBCmd ((("hotfix/").toList) ++ hotfix_name)) fun _ =>
  withGit env (pushUCmd ((("hotfix/").toList) ++ hotfix_name)) fun _ =>
  ([Event.out ((("🔥 Hotfix branch \x27").toList) ++ ((("hotfix/").toList) ++ hotfix_name) ++
      (("\x27 created and pushed to remote").toList))], some ())

/-- The pull-request description template of `_create_pull_request`
(the triple-quoted string with the title spliced in, then `strip()`ed). -/
def prDescription (title : PyStr) : PyStr :=
  pyStrip (List.intercalate (("\x0A").toList)
    [[], ("## Description").toList, title, [], ("## Type of Change").toList,
     ("- [ ] Bug fix").toList, ("- [x] New feature").toList,
     ("- [ ] Breaking change").toList, ("- [ ] Documentation update").toList,
     [], ("## Testing").toList, ("- [ ] Unit tests pass").toList,
     ("- [ ] Integration tests pass").toList,
     ("- [ ] Manual testing completed").toList, [], ("## Checklist").toList,
     ("- [ ] Code follows project style guidelines").toList,
     ("- [ ] Self-review completed").toList,
     ("- [ ] Documentation updated").toList,
     ("- [ ] No sensitive data exposed").toList,
     ("                ").toList])

/-- `_create_pull_request`: performs the API call; on success prints the new
pull-request id, on failure prints an error — the exception is caught inside
the method, so it returns normally either way. -/
def create_pull_request (env : Env) (repo source_branch target_branch title : PyStr) :
    List Event × Option Unit :=
  let ev := Event.aws ((("Feature: ").toList) ++ title) (prDescription title) repo
      ((("refs/heads/").toList) ++ source_branch)
      ((("refs/heads/").toList) ++ target_branch)
  if env.prOk then
    ([ev, Event.out (("✅ Pull request created successfully!").toList),
      Event.out ((("🔗 Pull Request ID: ").toList) ++ env.prId)], some ())
  else
    ([ev, Event.out ((("❌ Failed to create pull request: ").toList) ++ env.prErr)], some ())

/-- The manual-instruction path of `finish_feature`, taken when the stored
repository name is falsy. -/
def finishManual (feature_name target_branch : PyStr) : List Event × Option Unit :=
  ([Event.out (("⚠️  Repository name not provided. Cannot create pull request automatically.").toList),
    Event.out ((("Please create a pull request manually from ").toList) ++
      ((("feature/").toList) ++ feature_name) ++ ((" to ").toList) ++ target_branch)], some ())

/-- `finish_feature`: checkout the feature branch, push it, then test the
stored repository name for TRUTHINESS (the source gates on the string value
itself, so an absent name AND the empty string both take the
manual-instruction path); a truthy name takes the create-pull-request path. -/
def finish_feature (env : Env) (repository_name : Option PyStr)
    (feature_name target_branch : PyStr) : List Event × Option Unit :=
  emit ((("Finishing feature branch: ").toList) ++ ((("feature/").toList) ++ feature_name)) <|
  withGit env (checkoutCmd ((("feature/").toList) ++ feature_name)) fun _ =>
  withGit env (pushCmd ((("feature/").toList) ++ feature_name)) fun _ =>
  match repository_name with
  | some r =>
    if r.isEmpty then finishManual feature_name target_branch
    else
      create_pull_request env r ((("feature/").toList) ++ feature_name) target_branch feature_name
  | none => finishManual feature_name target_branch

/-! ### Cleanup of merged branches -/

/-- The filter of the branch-listing comprehension in `clean_merged_branches`:
keep a line when its stripped form is nonempty, does not start with `*`
(the marker of the currently checked-out branch), and the RAW line does not
contain the substring `main`. -/
def keepBranch (branch : PyStr) : Bool :=
  let b := pyStrip branch
  (!b.isEmpty) && (!startsWithChar '*' b) && (!(pyIn (("main").toList) branch))

/-- The candidate list of `clean_merged_branches`: stripped kept lines of the
`git branch --merged main` output. -/
def mergedCandidates (out : PyStr) : List PyStr :=
  (splitChar '\x0A' out).filterMap
    (fun branch => if keepBranch branch then some (pyStrip branch) else none)

/-- The candidate list a cleanup invocation against `env` works on. -/
def candidatesOf (env : Env) : List PyStr := mergedCandidates (env.gitOut mergedCmd)

/-- One iteration of the local-deletion loop: the deletion attempt is wrapped
in a bare `except`, which also catches the `SystemExit` raised by
`_run_git_command`, so a failure only changes the printed line. -/
def localDeleteStep (env : Env) (branch : PyStr) : List Event :=
  match runGit env (delLocalCmd branch) with
  | (t, some _) => t ++ [Event.out ((("✅ Deleted local branch: ").toList) ++ branch)]
  | (t, none) => t ++ [Event.out ((("⚠️  Could not delete local branch: ").toList) ++ branch)]

/-- One iteration of the remote-deletion loop (same failure handling). -/
def remoteDeleteStep (env : Env) (branch : PyStr) : List Event :=
  match runGit env (delRemoteCmd branch) with
  | (t, some _) => t ++ [Event.out ((("✅ Deleted remote branch: ").toList) ++ branch)]
  | (t, none) => t ++ [Event.out ((("⚠️  Could not delete remote branch: ").toList) ++ branch)]

/-- The body of `clean_merged_branches` after the listing query succeeded:
print the candidates; in dry-run mode stop there; otherwise run the
local-deletion loop over all candidates and then the remote-deletion loop
over all candidates. -/
def cleanAfterList (env : Env) (dry_run : Bool) (out : PyStr) : List Event × Option Unit :=
  if (mergedCandidates out).isEmpty then
    ([Event.out (("✅ No merged branches to clean up").toList)], some ())
  else if dry_run then
    (Event.out ((("Found ").toList) ++ (toString (mergedCandidates out).length).toList ++
        ((" merged branches:").toList)) ::
      (mergedCandidates out).map (fun b => Event.out ((("  - ").toList) ++ b)) ++
      [Event.out (("🔍 This is a dry run. Use --no-dry-run to actually delete branches.").toList)],
     some ())
  else
    (Event.out ((("Found ").toList) ++ (toString (mergedCandidates out).length).toList ++
        ((" merged branches:").toList)) ::
      (mergedCandidates out).map (fun b => Event.out ((("  - ").toList) ++ b)) ++
      (mergedCandidates out).flatMap (localDeleteStep env) ++
      (mergedCandidates out).flatMap (remoteDeleteStep env), some ())

/-- `clean_merged_branches`: list merged branches (fatal on failure), then
run the body above on the listing output. -/
def clean_merged_branches (env : Env) (dry_run : Bool) : List Event × Option Unit :=
  emit (("🧹 Cleaning up merged branches...").toList) <|
  withGit env mergedCmd fun out => cleanAfterList env dry_run out

/-! ### Repository health check -/

/-- The transient health report (the `metrics` dictionary is represented by
its three possible entries, each present exactly when the source inserts the
corresponding key). -/
structure HealthReport where
  status : PyStr
  issues : List PyStr
  recommendations : List PyStr
  unpushed_commits : Option Nat
  days_since_last_commit : Option Nat
  large_files : Option (List (PyStr × Int))
deriving DecidableEq

/-- `len(result.stdout.strip().split('\x0A')) if result.stdout.strip() else 0`. -/
def unpushedCountOf (out : PyStr) : Nat :=
  if (pyStrip out).isEmpty then 0 else (splitChar '\x0A' (pyStrip out)).length

/-- The entries one line of `git ls-files -s` output contributes to the
large-file list: an empty line is skipped; a line with no tab is skipped; on
a line with a tab, the fourth whitespace token of the part before the first
tab is parsed as the size (`none` models the IndexError or ValueError raised
when it is absent or non-numeric) and the entry is kept when it exceeds
10 * 1024 * 1024 bytes. -/
def parseLsLine (line : PyStr) : Option (List (PyStr × Int)) :=
  if line.isEmpty then some []
  else
    match splitChar '\x09' line with
    | p0 :: p1 :: _ =>
      match (pySplitWs p0)[3]? with
      | none => none
      | some tok =>
        match pyInt tok with
        | none => none
        | some size => if size > 10 * 1024 * 1024 then some [(p1, size)] else some []
    | _ => some []

/-- The large-file scan over the whole `ls-files` output; `none` when any
line raises, in which case the source's bare `except` discards everything
collected so far. -/
def parseLargeFiles (out : PyStr) : Option (List (PyStr × Int)) :=
  (splitChar '\x0A' out).foldl
    (fun acc line =>
      match acc, parseLsLine line with
      | some l, some l2 => some (l ++ l2)
      | _, _ => none)
    (some [])

/-- The report-printing block at the end of `repository_health_check`. -/
def metricPrints (r : HealthReport) : List Event :=
  (match r.unpushed_commits with
   | some n => [Event.out ((("   - unpushed_commits: ").toList) ++ (toString n).toList)]
   | none => []) ++
  (match r.days_since_last_commit with
   | some d => [Event.out ((("   - days_since_last_commit: ").toList) ++ (toString d).toList)]
   | none => []) ++
  (match r.large_files with
   | some l => [Event.out ((("   - large_files: ").toList) ++ (toString l.length).toList ++
       ((" files").toList))]
   | none => [])

/-- Whether the metrics dictionary is nonempty. -/
def hasMetrics (r : HealthReport) : Bool :=
  r.unpushed_commits.isSome || r.days_since_last_commit.isSome || r.large_files.isSome

/-- The result-reporting prints of `repository_health_check`. -/
def reportPrints (r : HealthReport) : List Event :=
  [Event.out ((("📊 Repository Status: ").toList) ++ r.status.map Char.toUpper)] ++
  (if r.issues.isEmpty then []
   else Event.out (("⚠️  Issues found:").toList) ::
     r.issues.map (fun i => Event.out ((("   - ").toList) ++ i))) ++
  (if r.recommendations.isEmpty then []
   else Event.out (("💡 Recommendations:").toList) ::
     r.recommendations.map (fun i => Event.out ((("   - ").toList) ++ i))) ++
  (if hasMetrics r then Event.out (("📈 Metrics:").toList) :: metricPrints r else [])

/-- The body of `repository_health_check` after the porcelain-status query:
the three remaining signals are each wrapped in a bare `except` (catching
the `SystemExit` of `_run_git_command` as well), so their failures only omit
the signal.  A nonempty large-file list adds an issue, a recommendation and
a metric but does NOT change the status field. -/
def healthBody (env : Env) (out1 : PyStr) : List Event × Option HealthReport :=
  let uncommitted := !(pyStrip out1).isEmpty
  let issues1 : List PyStr := if uncommitted then [("Uncommitted changes detected").toList] else []
  let status1 : PyStr := if uncommitted then ("warning").toList else ("healthy").toList
  let r2 := runGit env logCmd
  let unpushedOpt : Option Nat :=
    match r2.2 with
    | some o => some (unpushedCountOf o)
    | none => none
  let issues2 := issues1 ++
    (match unpushedOpt with
     | some n =>
       if 0 < n then [(toString n).toList ++ ((" unpushed commits on current branch").toList)]
       else []
     | none => [])
  let status2 : PyStr :=
    match unpushedOpt with
    | some n => if 0 < n then ("warning").toList else status1
    | none => status1
  let r3 := runGit env showCmd
  let daysOpt : Option Nat :=
    match r3.2 with
    | some o => env.pyDays o
    | none => none
  let recs1 : List PyStr :=
    match daysOpt with
    | some d => if 30 < d then [("Consider making more frequent commits").toList] else []
    | none => []
  let r4 := runGit env lsFilesCmd
  let lfs : List (PyStr × Int) :=
    match r4.2 with
    | some o => match parseLargeFiles o with
      | some l => l
      | none => []
    | none => []
  let issues3 := issues2 ++
    (if lfs.isEmpty then []
     else [(toString lfs.length).toList ++ ((" large files detected").toList)])
  let recs2 := recs1 ++
    (if lfs.isEmpty then [] else [("Consider using Git LFS for large files").toList])
  let report : HealthReport :=
    { status := status2, issues := issues3, recommendations := recs2,
      unpushed_commits := unpushedOpt, days_since_last_commit := daysOpt,
      large_files := if lfs.isEmpty then none else some lfs }
  (r2.1 ++ r3.1 ++ r4.1 ++ reportPrints report, some report)

/-- `repository_health_check`: the porcelain-status query (fatal on failure)
followed by the body above. -/
def repository_health_check (env : Env) : List Event × Option HealthReport :=
  emit (("🏥 Performing repository health check...").toList) <|
  withGit env statusCmd fun out1 => healthBody env out1

/-! ### Sync with remote -/

/-- The default of `sync_with_remote`: a missing or falsy (empty) branch
argument is replaced by the branch read at construction time. -/
def resolveBranch (current_branch : PyStr) (branchArg : Option PyStr) : PyStr :=
  match branchArg with
  | none => current_branch
  | some b => if b.isEmpty then current_branch else b

/-- The `except` branch of `sync_with_remote`: print the two notice lines and
push with upstream tracking; this push is NOT covered by the `try`, so its
failure is fatal. -/
def syncExceptBranch (env : Env) (branch : PyStr) : List Event × Option Unit :=
  let msgs := [Event.out ((("⚠️  Remote branch origin/").toList) ++ branch ++
      ((" doesn\x27t exist").toList)),
    Event.out (("Creating remote branch...").toList)]
  match runGit env (pushUCmd branch) with
  | (t, some _) =>
    (msgs ++ t ++ [Event.out (("✅ Remote branch created and synced").toList)], some ())
  | (t, none) => (msgs ++ t, none)

/-- `sync_with_remote`: fetch (fatal on failure), then inside one `try`:
probe `origin/<branch>` with `rev-parse` and pull it.  The bare `except`
catches a failure of EITHER command (each raises `SystemExit` through
`_run_git_command`) and falls through to creating the remote branch. -/
def sync_with_remote (env : Env) (current_branch : PyStr) (branchArg : Option PyStr) :
    List Event × Option Unit :=
  let branch := resolveBranch current_branch branchArg
  emit ((("🔄 Syncing ").toList) ++ branch ++ ((" with remote...").toList)) <|
  withGit env fetchCmd fun _ =>
  match runGit env (revParseOriginCmd branch) with
  | (t, some _) =>
    match runGit env (pullCmd branch) with
    | (t2, some _) =>
      (t ++ t2 ++ [Event.out ((("✅ ").toList) ++ branch ++ ((" synced with remote").toList))],
       some ())
    | (t2, none) =>
      let r := syncExceptBranch env branch
      (t ++ t2 ++ r.1, r.2)
  | (t, none) =>
    let r := syncExceptBranch env branch
    (t ++ r.1, r.2)

/-! ### Release branch creation -/

/-- The core of the version validation pattern: three dot-separated nonempty
digit runs covering the whole string. -/
def versionCore (s : PyStr) : Bool :=
  match splitChar '.' s with
  | [a, b, c] =>
    (!a.isEmpty && a.all Char.isDigit) && (!b.isEmpty && b.all Char.isDigit) &&
      (!c.isEmpty && c.all Char.isDigit)
  | _ => false

/-- The version validation of `create_release_branch`.  The source matches
the anchored pattern of three dot-separated digit runs with the `re` engine,
whose end anchor matches at the end of the string AND immediately before a
newline that ends the string — so a version with one trailing newline is
also accepted. -/
def versionRegexAccepts (s : PyStr) : Bool :=
  versionCore s ||
    (match s.getLast? with
     | some ch => ch = '\x0A' && versionCore s.dropLast
     | none => false)

/-- The version-marker rewrite for one candidate file: skipped when the file
does not exist; plain files are overwritten with the version plus a newline;
the structured manifest (`package.json`) rewrite is wrapped in its own
`try`, printing a warning on failure (the written content of the manifest is
abstracted to the version field that changes). -/
def updateVersionFile (env : Env) (version f : PyStr) : List Event :=
  if env.fileExists f then
    Event.out ((("Updating version in ").toList) ++ f) ::
    (if f = ("package.json").toList then
      (if env.pkgOk then [Event.fileWrite f version]
       else [Event.out ((("⚠️  Could not update package.json: ").toList) ++ env.pkgErr)])
     else [Event.fileWrite f (version ++ ("\x0A").toList)])
  else []

/-- Prefix a list of events to a run fragment. -/
def prepend {α : Type} (es : List Event) (r : List Event × α) : List Event × α :=
  (es ++ r.1, r.2)

/-- `create_release_branch`: validate the version (on rejection print the
error and RETURN — no git command at all is issued); otherwise checkout
base, pull, create `release/<version>`, update whichever version-marker
files exist, `git add .`, commit, push with upstream tracking. -/
def create_release_branch (env : Env) (version base_branch : PyStr) :
    List Event × Option Unit :=
  emit ((("Creating release branch: release/").toList) ++ version) <|
  if !versionRegexAccepts version then
    ([Event.out (("❌ Version must follow semantic versioning format (x.y.z)").toList)], some ())
  else
    withGit env (checkoutCmd base_branch) fun _ =>
    withGit env (pullCmd base_branch) fun _ =>
    let branch_name := (("release/").toList) ++ version
    withGit env (checkoutBCmd branch_name) fun _ =>
    prepend (updateVersionFile env version (("version.txt").toList) ++
             updateVersionFile env version (("VERSION").toList) ++
             updateVersionFile env version (("package.json").toList)) <|
    withGit env addCmd fun _ =>
    withGit env (commitCmd version) fun _ =>
    withGit env (pushUCmd branch_name) fun _ =>
    ([Event.out ((("🚀 Release branch \x27").toList) ++ branch_name ++
        (("\x27 created and pushed to remote").toList))], some ())

/-! ### The command-line dispatch (`main`): construct the automator, run the
selected operation, exit 0 on normal return.  `SystemExit` raised by
`_run_git_command` in a fatal context passes through the `except Exception`
handler of `main`, so the process exits with status 1 there. -/

/-- `feature start` at process level. -/
def runFeatureStart (env : Env) (repo : Option PyStr) (name base : PyStr) :
    List Event × Nat :=
  let i := automatorInit env repo
  let r := create_feature_branch env name base
  (i.1 ++ r.1, exitCode r.2)

/-- `feature finish` at process level. -/
def runFeatureFinish (env : Env) (repo : Option PyStr) (name target : PyStr) :
    List Event × Nat :=
  let i := automatorInit env repo
  let r := finish_feature env i.2.repository_name name target
  (i.1 ++ r.1, exitCode r.2)

/-- `hotfix` at process level. -/
def runHotfix (env : Env) (repo : Option PyStr) (name base : PyStr) :
    List Event × Nat :=
  let i := automatorInit env repo
  let r := create_hotfix_branch env name base
  (i.1 ++ r.1, exitCode r.2)

/-- `release` at process level. -/
def runRelease (env : Env) (repo : Option PyStr) (version base : PyStr) :
    List Event × Nat :=
  let i := automatorInit env repo
  let r := create_release_branch env version base
  (i.1 ++ r.1, exitCode r.2)

/-- `cleanup` at process level. -/
def runCleanup (env : Env) (repo : Option PyStr) (dry_run : Bool) :
    List Event × Nat :=
  let i := automatorInit env repo
  let r := clean_merged_branches env dry_run
  (i.1 ++ r.1, exitCode r.2)

/-- `sync` at process level: the branch defaults to the branch read when the
automator was constructed. -/
def runSyncCommand (env : Env) (repo : Option PyStr) (branchArg : Option PyStr) :
    List Event × Nat :=
  let i := automatorInit env repo
  let r := sync_with_remote env i.2.current_branch branchArg
  (i.1 ++ r.1, exitCode r.2)

/-- `health` at process level. -/
def runHealth (env : Env) (repo : Option PyStr) : List Event × Nat :=
  let i := automatorInit env repo
  let r := repository_health_check env
  (i.1 ++ r.1, match r.2 with | some _ => 0 | none => 1)

/-! ### Spec-side notions used to state the claims -/

/-- The version format named by the specification: three dot-separated
nonempty decimal-digit runs covering the whole string, nothing else. -/
def specVersionFormat (s : PyStr) : Prop :=
  ∃ a b c : PyStr, a ≠ [] ∧ b ≠ [] ∧ c ≠ [] ∧
    (∀ x ∈ a, x.isDigit = true) ∧ (∀ x ∈ b, x.isDigit = true) ∧
    (∀ x ∈ c, x.isDigit = true) ∧ s = a ++ ('.' :: (b ++ ('.' :: c)))

/-- Modelled from the spec: "the simulated remote" of the TESTABLE PROPERTIES
section — the version-control state observed there is the checked-out branch,
the local branches and the remote branches; `checkout` moves the checked-out
branch, `checkout -b` additionally creates it locally, `push -u origin`
creates the remote counterpart, and every other command leaves this state
unchanged. -/
structure GitState where
  current : PyStr
  localBranches : List PyStr
  remoteBranches : List PyStr
deriving DecidableEq

/-- Modelled from the spec: effect of one git command on the simulated state. -/
def applyGit (st : GitState) (args : List PyStr) : GitState :=
  match args with
  | [a, b] => if a = ("checkout").toList then { st with current := b } else st
  | [a, a2, b] =>
    if a = ("checkout").toList ∧ a2 = ("-b").toList then
      { st with current := b, localBranches := b :: st.localBranches }
    else st
  | [a, a2, a3, b] =>
    if a = ("push").toList ∧ a2 = ("-u").toList ∧ a3 = ("origin").toList then
      { st with remoteBranches := if b ∈ st.remoteBranches then st.remoteBranches else b :: st.remoteBranches }
    else st
  | _ => st

/-- Replay the git commands of a trace on the simulated state. -/
def runTrace (st : GitState) (es : List Event) : GitState :=
  es.foldl (fun s e => match e with | Event.git a => applyGit s a | _ => s) st

/-- Modelled from the spec: "`name` must be a non-empty identifier safe for
use in a branch path" — nonempty and made of alphanumerics, `-` and `_`. -/
def validIdentifier (s : PyStr) : Bool :=
  (!s.isEmpty) && s.all (fun c => c.isAlphanum || c = '-' || c = '_')

/-- Uncommitted working-tree changes are present, as the health check reads
the porcelain status. -/
def uncommittedSignal (env : Env) : Bool := !(pyStrip (env.gitOut statusCmd)).isEmpty

/-- The unpushed-commit query succeeds and reports a positive count. -/
def unpushedSignal (env : Env) : Bool :=
  env.gitOk logCmd && decide (0 < unpushedCountOf (env.gitOut logCmd))

/-- At least one tracked file exceeds the 10 MB threshold, as read from the
tracked-file size listing. -/
def largeFileSignal (env : Env) : Bool :=
  env.gitOk lsFilesCmd &&
    (match parseLargeFiles (env.gitOut lsFilesCmd) with
     | some l => !l.isEmpty
     | none => false)

/-- Status field of the report returned by a health-check run. -/
def statusOfRun (env : Env) : Option PyStr :=
  (repository_health_check env).2.map HealthReport.status

/-- The deletion commands of the cleanup operation. -/
def isDeleteCmd : Event → Bool
  | Event.git args =>
    args.take 2 = [("branch").toList, ("-d").toList] ||
      args.take 3 = [("push").toList, ("origin").toList, ("--delete").toList]
  | _ => false

/-! ### Concrete worlds used by witnesses and counterexamples -/

/-- Every external command succeeds with empty output. -/
def envAllOk : Env :=
  { gitOk := fun _ => true, gitOut := fun _ => [], gitErr := fun _ => [],
    pyDays := fun _ => none, fileExists := fun _ => false,
    prOk := true, prId := [], prErr := [], pkgOk := true, pkgErr := [] }

/-- A clean repository containing one tracked 20 MB file: no uncommitted
changes, no unpushed commits, one `ls-files -s` line whose fourth token is a
size above the threshold. -/
def envLargeFile : Env :=
  { envAllOk with
    gitOut := fun args =>
      if args = lsFilesCmd then ("100644 abc 0 20971521\x09big.bin").toList else [] }

/-- A world whose merged-branch listing contains `maintenance/x`, the starred
current branch, and `old/z`. -/
def envMaintenance : Env :=
  { envAllOk with
    gitOut := fun args =>
      if args = mergedCmd then ("  maintenance/x\x0A* feature/y\x0A  old/z\x0A").toList
      else [] }

/-- A world whose merged-branch listing contains `old/z` and `dev`. -/
def envTwoMerged : Env :=
  { envAllOk with
    gitOut := fun args =>
      if args = mergedCmd then ("  old/z\x0A  dev\x0A").toList else [] }

/-- Every git command succeeds but the create-pull-request call fails. -/
def envPrFail : Env :=
  { envAllOk with prOk := false, prErr := ("AccessDenied").toList }

/-- Only the current-branch query fails. -/
def envNoHead : Env :=
  { envAllOk with gitOk := fun args => decide (args ≠ revAbbrevCmd) }

/-- Only the checkout of `main` fails. -/
def envCheckoutFails : Env :=
  { envAllOk with gitOk := fun args => decide (args ≠ checkoutCmd (("main").toList)) }

/-- Only the remote-branch probe for `origin/topic` fails. -/
def envNoRemoteTopic : Env :=
  { envAllOk with
    gitOk := fun args => decide (args ≠ revParseOriginCmd (("topic").toList)) }

/-- Join pieces with a one-character separator (inverse of `splitChar`, used
only in proofs). -/
def joinSep (c : Char) : List PyStr → PyStr
  | [] => []
  | x :: xs =>
    match xs with
    | [] => x
    | _ :: _ => x ++ c :: joinSep c xs

/-! ## Helper lemmas -/

theorem splitChar_ne_nil (c : Char) (s : PyStr) : splitChar c s ≠ [] := by
  cases s with
  | nil => simp [splitChar]
  | cons x xs =>
    unfold splitChar
    cases h : splitChar c xs with
    | nil => simp
    | cons r rs => by_cases hx : x = c <;> simp [hx]

theorem splitChar_cons (c x : Char) (xs : PyStr) :
    splitChar c (x :: xs) =
      match splitChar c xs with
      | [] => [[]]
      | r :: rs => if x = c then [] :: r :: rs else (x :: r) :: rs := rfl

theorem joinSep_splitChar (c : Char) (s : PyStr) : joinSep c (splitChar c s) = s := by
  induction s with
  | nil => rfl
  | cons x xs ih =>
    rw [splitChar_cons]
    cases h : splitChar c xs with
    | nil => exact absurd h (splitChar_ne_nil c xs)
    | cons r rs =>
      rw [h] at ih
      by_cases hx : x = c
      · subst hx
        have h1 : joinSep x ([] :: r :: rs) = x :: joinSep x (r :: rs) := rfl
        simp only [eq_self_iff_true, if_true]
        rw [h1, ih]
      · simp only [if_neg hx]
        cases rs with
        | nil =>
          have h1 : joinSep c [r] = r := rfl
          rw [h1] at ih
          have h2 : joinSep c [x :: r] = x :: r := rfl
          rw [h2, ih]
        | cons r2 rs2 =>
          have h1 : joinSep c ((x :: r) :: r2 :: rs2) = (x :: r) ++ c :: joinSep c (r2 :: rs2) := rfl
          have h2 : joinSep c (r :: r2 :: rs2) = r ++ c :: joinSep c (r2 :: rs2) := rfl
          rw [h2] at ih
          rw [h1, List.cons_append, ih]

theorem mem_splitChar_not_sep (c : Char) (s : PyStr) :
    ∀ p ∈ splitChar c s, c ∉ p := by
  induction s with
  | nil => intro p hp; simp [splitChar] at hp; simp [hp]
  | cons x xs ih =>
    intro p hp
    unfold splitChar at hp
    cases h : splitChar c xs with
    | nil => exact absurd h (splitChar_ne_nil c xs)
    | cons r rs =>
      rw [h] at hp
      by_cases hx : x = c
      · simp only [hx, if_true] at hp
        rcases List.mem_cons.1 hp with hp1 | hp2
        · simp [hp1]
        · exact ih p (h ▸ hp2)
      · simp only [hx, if_false] at hp
        rcases List.mem_cons.1 hp with hp1 | hp2
        · subst hp1
          have hr : c ∉ r := ih r (h ▸ List.mem_cons_self r rs)
          intro hmem
          rcases List.mem_cons.1 hmem with h1 | h2
          · exact hx h1.symm
          · exact hr h2
        · exact ih p (h ▸ List.mem_cons.2 (Or.inr hp2))

theorem splitChar_no_sep (c : Char) (a : PyStr) (h : c ∉ a) : splitChar c a = [a] := by
  induction a with
  | nil => rfl
  | cons x xs ih =>
    have hx : ¬x = c := fun e => h (e ▸ List.mem_cons_self x xs)
    have hxs : c ∉ xs := fun m => h (List.mem_cons.2 (Or.inr m))
    unfold splitChar
    rw [ih hxs]
    simp [hx]

theorem splitChar_append_sep (c : Char) (a t : PyStr) (h : c ∉ a) :
    splitChar c (a ++ c :: t) = a :: splitChar c t := by
  induction a with
  | nil =>
    show splitChar c (c :: t) = [] :: splitChar c t
    rw [splitChar_cons]
    cases ht : splitChar c t with
    | nil => exact absurd ht (splitChar_ne_nil c t)
    | cons r rs => simp
  | cons x xs ih =>
    have hx : ¬x = c := fun e => h (e ▸ List.mem_cons_self x xs)
    have hxs : c ∉ xs := fun m => h (List.mem_cons.2 (Or.inr m))
    have hrec := ih hxs
    show splitChar c (x :: (xs ++ c :: t)) = (x :: xs) :: splitChar c t
    rw [splitChar_cons, hrec]
    simp [hx]

theorem versionCore_eq_true_iff (s : PyStr) : versionCore s = true ↔ specVersionFormat s := by
  constructor
  · intro h
    unfold versionCore at h
    cases hsp : splitChar '.' s with
    | nil => rw [hsp] at h; simp at h
    | cons a l1 =>
      cases l1 with
      | nil => rw [hsp] at h; simp at h
      | cons b l2 =>
        cases l2 with
        | nil => rw [hsp] at h; simp at h
        | cons cc l3 =>
          cases l3 with
          | cons d l4 => rw [hsp] at h; simp at h
          | nil =>
            rw [hsp] at h
            simp only [Bool.and_eq_true, Bool.not_eq_true, List.all_eq_true] at h
            obtain ⟨⟨⟨ha1, ha2⟩, hb1, hb2⟩, hc1, hc2⟩ := h
            have hs : a ++ ('.' :: (b ++ ('.' :: cc))) = s := by
              have hj := joinSep_splitChar '.' s
              rw [hsp] at hj
              exact hj
            refine ⟨a, b, cc, ?_, ?_, ?_, ha2, hb2, hc2, hs.symm⟩
            · intro e; rw [e] at ha1; simp at ha1
            · intro e; rw [e] at hb1; simp at hb1
            · intro e; rw [e] at hc1; simp at hc1
  · rintro ⟨a, b, cc, ha, hb, hc, hda, hdb, hdc, rfl⟩
    have hna : '.' ∉ a := by
      intro m; have := hda '.' m; simp at this
    have hnb : '.' ∉ b := by
      intro m; have := hdb '.' m; simp at this
    have hnc : '.' ∉ cc := by
      intro m; have := hdc '.' m; simp at this
    have h1 : splitChar '.' (a ++ '.' :: (b ++ ('.' :: cc))) =
        a :: splitChar '.' (b ++ ('.' :: cc)) := splitChar_append_sep '.' a _ hna
    have h2 : splitChar '.' (b ++ ('.' :: cc)) = b :: splitChar '.' cc :=
      splitChar_append_sep '.' b cc hnb
    have h3 : splitChar '.' cc = [cc] := splitChar_no_sep '.' cc hnc
    unfold versionCore
    rw [h1, h2, h3]
    simp only [Bool.and_eq_true, Bool.not_eq_true, List.all_eq_true]
    refine ⟨⟨⟨?_, hda⟩, ?_, hdb⟩, ?_, hdc⟩
    · cases a with
      | nil => exact absurd rfl ha
      | cons x xs => rfl
    · cases b with
      | nil => exact absurd rfl hb
      | cons x xs => rfl
    · cases cc with
      | nil => exact absurd rfl hc
      | cons x xs => rfl

theorem pyIn_of_append (sub p q : PyStr) : pyIn sub (p ++ sub ++ q) = true := by
  induction p with
  | nil =>
    cases sub with
    | nil =>
      cases q with
      | nil => rfl
      | cons y ys => simp [pyIn]
    | cons c sub' =>
      have hpre : (c :: sub').isPrefixOf ((c :: sub') ++ q) = true :=
        List.isPrefixOf_iff_prefix.2 (List.prefix_append _ _)
      simp only [List.nil_append, List.cons_append] at hpre ⊢
      simp [pyIn, hpre]
  | cons x p' ih =>
    simp only [List.cons_append]
    simp only [pyIn, Bool.or_eq_true]
    right
    exact ih

theorem pyStrip_infix (l : PyStr) : ∃ p q, l = p ++ pyStrip l ++ q := by
  have h1 : (l.dropWhile pySpace) <:+ l := List.dropWhile_suffix _
  have h3 : pyStrip l <+: l.dropWhile pySpace :=
    (@List.reverse_suffix _ (pyStrip l) (l.dropWhile pySpace)).1 (by
      show (pyStrip l).reverse <:+ (l.dropWhile pySpace).reverse
      unfold pyStrip
      rw [List.reverse_reverse]
      exact List.dropWhile_suffix _)
  have hinf : pyStrip l <:+: l := List.infix_iff_prefix_suffix.2 ⟨_, h3, h1⟩
  obtain ⟨p, q, hl⟩ := hinf
  exact ⟨p, q, hl.symm⟩

theorem pyIn_pyStrip (l : PyStr) : pyIn (pyStrip l) l = true := by
  obtain ⟨p, q, h⟩ := pyStrip_infix l
  have hb := pyIn_of_append (pyStrip l) p q
  rw [← h] at hb
  exact hb

theorem runGit_ok (env : Env) (args : List PyStr) (h : env.gitOk args = true) :
    runGit env args = ([Event.git args], some (env.gitOut args)) := by
  unfold runGit
  rw [h]
  simp

theorem runGit_fail (env : Env) (args : List PyStr) (h : env.gitOk args = false) :
    runGit env args = ([Event.git args,
      Event.out ((("Git command failed: ").toList) ++ renderCmd args),
      Event.out ((("Error: ").toList) ++ env.gitErr args)], none) := by
  unfold runGit
  rw [h]
  simp

theorem delRemote_ne_delLocal (c b : PyStr) :
    Event.git (delRemoteCmd c) ≠ Event.git (delLocalCmd b) := by
  intro h
  simp only [Event.git.injEq, delRemoteCmd, delLocalCmd, List.cons.injEq] at h
  exact absurd h.1 (by decide)

theorem localDeleteStep_eq_ok (env : Env) (c : PyStr) (h : env.gitOk (delLocalCmd c) = true) :
    localDeleteStep env c = [Event.git (delLocalCmd c),
      Event.out ((("✅ Deleted local branch: ").toList) ++ c)] := by
  unfold localDeleteStep
  rw [runGit_ok env _ h]
  rfl

theorem localDeleteStep_eq_fail (env : Env) (c : PyStr)
    (h : env.gitOk (delLocalCmd c) = false) :
    localDeleteStep env c = [Event.git (delLocalCmd c),
      Event.out ((("Git command failed: ").toList) ++ renderCmd (delLocalCmd c)),
      Event.out ((("Error: ").toList) ++ env.gitErr (delLocalCmd c)),
      Event.out ((("⚠️  Could not delete local branch: ").toList) ++ c)] := by
  unfold localDeleteStep
  rw [runGit_fail env _ h]
  rfl

theorem remoteDeleteStep_eq_ok (env : Env) (c : PyStr)
    (h : env.gitOk (delRemoteCmd c) = true) :
    remoteDeleteStep env c = [Event.git (delRemoteCmd c),
      Event.out ((("✅ Deleted remote branch: ").toList) ++ c)] := by
  unfold remoteDeleteStep
  rw [runGit_ok env _ h]
  rfl

theorem remoteDeleteStep_eq_fail (env : Env) (c : PyStr)
    (h : env.gitOk (delRemoteCmd c) = false) :
    remoteDeleteStep env c = [Event.git (delRemoteCmd c),
      Event.out ((("Git command failed: ").toList) ++ renderCmd (delRemoteCmd c)),
      Event.out ((("Error: ").toList) ++ env.gitErr (delRemoteCmd c)),
      Event.out ((("⚠️  Could not delete remote branch: ").toList) ++ c)] := by
  unfold remoteDeleteStep
  rw [runGit_fail env _ h]
  rfl

theorem delLocal_inj_ne (c b : PyStr) (hcb : c ≠ b) :
    Event.git (delLocalCmd c) ≠ Event.git (delLocalCmd b) := by
  intro he
  apply hcb
  simpa [delLocalCmd] using he

theorem delRemote_inj_ne (c b : PyStr) (hcb : c ≠ b) :
    Event.git (delRemoteCmd c) ≠ Event.git (delRemoteCmd b) := by
  intro he
  apply hcb
  simpa [delRemoteCmd] using he

theorem localDeleteStep_count (env : Env) (c b : PyStr) :
    (localDeleteStep env c).count (Event.git (delLocalCmd b)) = if c = b then 1 else 0 := by
  by_cases hcb : c = b
  · subst hcb
    cases h : env.gitOk (delLocalCmd c) with
    | true => rw [localDeleteStep_eq_ok env c h]; simp [List.count_cons]
    | false => rw [localDeleteStep_eq_fail env c h]; simp [List.count_cons]
  · have hne := delLocal_inj_ne c b hcb
    cases h : env.gitOk (delLocalCmd c) with
    | true => rw [localDeleteStep_eq_ok env c h]; simp [List.count_cons, hne, hcb]
    | false => rw [localDeleteStep_eq_fail env c h]; simp [List.count_cons, hne, hcb]

theorem remoteDeleteStep_count (env : Env) (c b : PyStr) :
    (remoteDeleteStep env c).count (Event.git (delRemoteCmd b)) = if c = b then 1 else 0 := by
  by_cases hcb : c = b
  · subst hcb
    cases h : env.gitOk (delRemoteCmd c) with
    | true => rw [remoteDeleteStep_eq_ok env c h]; simp [List.count_cons]
    | false => rw [remoteDeleteStep_eq_fail env c h]; simp [List.count_cons]
  · have hne := delRemote_inj_ne c b hcb
    cases h : env.gitOk (delRemoteCmd c) with
    | true => rw [remoteDeleteStep_eq_ok env c h]; simp [List.count_cons, hne, hcb]
    | false => rw [remoteDeleteStep_eq_fail env c h]; simp [List.count_cons, hne, hcb]

theorem remoteDeleteStep_count_local (env : Env) (c b : PyStr) :
    (remoteDeleteStep env c).count (Event.git (delLocalCmd b)) = 0 := by
  have hne := delRemote_ne_delLocal c b
  cases h : env.gitOk (delRemoteCmd c) with
  | true => rw [remoteDeleteStep_eq_ok env c h]; simp [List.count_cons, hne]
  | false => rw [remoteDeleteStep_eq_fail env c h]; simp [List.count_cons, hne]

theorem localDeleteStep_count_remote (env : Env) (c b : PyStr) :
    (localDeleteStep env c).count (Event.git (delRemoteCmd b)) = 0 := by
  have hne : Event.git (delLocalCmd c) ≠ Event.git (delRemoteCmd b) :=
    fun h => delRemote_ne_delLocal b c h.symm
  cases h : env.gitOk (delLocalCmd c) with
  | true => rw [localDeleteStep_eq_ok env c h]; simp [List.count_cons, hne]
  | false => rw [localDeleteStep_eq_fail env c h]; simp [List.count_cons, hne]

theorem flatMap_count_local (env : Env) (b : PyStr) (l : List PyStr) :
    (l.flatMap (localDeleteStep env)).count (Event.git (delLocalCmd b)) = l.count b := by
  induction l with
  | nil => simp
  | cons c cs ih =>
    rw [List.flatMap_cons, List.count_append, ih, localDeleteStep_count, List.count_cons]
    by_cases hcb : c = b <;> simp [hcb, Nat.add_comm]

theorem flatMap_count_remote (env : Env) (b : PyStr) (l : List PyStr) :
    (l.flatMap (remoteDeleteStep env)).count (Event.git (delRemoteCmd b)) = l.count b := by
  induction l with
  | nil => simp
  | cons c cs ih =>
    rw [List.flatMap_cons, List.count_append, ih, remoteDeleteStep_count, List.count_cons]
    by_cases hcb : c = b <;> simp [hcb, Nat.add_comm]

theorem flatMap_remote_count_local (env : Env) (b : PyStr) (l : List PyStr) :
    (l.flatMap (remoteDeleteStep env)).count (Event.git (delLocalCmd b)) = 0 := by
  induction l with
  | nil => simp
  | cons c cs ih =>
    rw [List.flatMap_cons, List.count_append, ih, remoteDeleteStep_count_local]

theorem flatMap_local_count_remote (env : Env) (b : PyStr) (l : List PyStr) :
    (l.flatMap (localDeleteStep env)).count (Event.git (delRemoteCmd b)) = 0 := by
  induction l with
  | nil => simp
  | cons c cs ih =>
    rw [List.flatMap_cons, List.count_append, ih, localDeleteStep_count_remote]

theorem create_release_branch_rejected (env : Env) (v base : PyStr)
    (hv : versionRegexAccepts v = false) :
    create_release_branch env v base =
      ([Event.out ((("Creating release branch: release/").toList) ++ v),
        Event.out (("❌ Version must follow semantic versioning format (x.y.z)").toList)],
       some ()) := by
  unfold create_release_branch emit
  rw [hv]
  rfl

theorem create_release_branch_accepted_mem (env : Env) (v base : PyStr)
    (hv : versionRegexAccepts v = true) :
    Event.git (checkoutCmd base) ∈ (create_release_branch env v base).1 := by
  unfold create_release_branch emit
  rw [hv]
  cases h : env.gitOk (checkoutCmd base) with
  | true => simp [withGit, runGit_ok env _ h]
  | false => simp [withGit, runGit_fail env _ h]

theorem getCurrentBranch_fst (env : Env) :
    (getCurrentBranch env).1 = [Event.git revAbbrevCmd] := by
  unfold getCurrentBranch
  by_cases h : env.gitOk revAbbrevCmd = true <;> simp [h]

/-- C3 (counterexample): the string `1.2.3` followed by one newline is not
three dot-separated non-negative decimal integers, yet release-branch
creation accepts it and proceeds to issue git commands — the end anchor of
the validation pattern also matches just before a trailing newline. -/
theorem release_version_newline_cex :
    ¬ specVersionFormat (("1.2.3\x0A").toList)
  ∧ (create_release_branch envAllOk (("1.2.3\x0A").toList) (("main").toList)).1.any
      isGitEvent = true := by
  constructor
  · intro h
    have hc := (versionCore_eq_true_iff (("1.2.3\x0A").toList)).2 h
    exact absurd hc (by decide)
  · decide

/-- C3 (amended): release-branch creation accepts a version string exactly
when it is three dot-separated non-negative decimal integers, possibly
followed by one trailing newline; on rejection it prints the two lines
(header and validation error) and issues no git command at all, and on
acceptance it proceeds to the checkout of the base branch. -/
theorem release_version_validation (env : Env) (v base : PyStr) :
    (versionRegexAccepts v = true ↔
      (specVersionFormat v ∨ (v.getLast? = some '\x0A' ∧ specVersionFormat v.dropLast)))
  ∧ (versionRegexAccepts v = false →
      create_release_branch env v base =
        ([Event.out ((("Creating release branch: release/").toList) ++ v),
          Event.out (("❌ Version must follow semantic versioning format (x.y.z)").toList)],
         some ()) ∧ (create_release_branch env v base).1.any isGitEvent = false)
  ∧ (versionRegexAccepts v = true →
      Event.git (checkoutCmd base) ∈ (create_release_branch env v base).1) := by
  refine ⟨?_, ?_, fun hv => create_release_branch_accepted_mem env v base hv⟩
  · unfold versionRegexAccepts
    cases hl : v.getLast? with
    | none => simp [versionCore_eq_true_iff]
    | some ch =>
      by_cases hch : ch = '\x0A'
      · subst hch
        simp [versionCore_eq_true_iff]
      · simp [hch, versionCore_eq_true_iff]
  · intro hv
    have hsh := create_release_branch_rejected env v base hv
    refine ⟨hsh, ?_⟩
    rw [hsh]
    rfl

/-- C3 (witness): the amended validation theorem applied at the rejected
version `1.2`. -/
theorem release_version_validation_w :
    create_release_branch envAllOk (("1.2").toList) (("main").toList) =
      ([Event.out ((("Creating release branch: release/").toList) ++ (("1.2").toList)),
        Event.out (("❌ Version must follow semantic versioning format (x.y.z)").toList)],
       some ()) :=
  ((release_version_validation envAllOk (("1.2").toList) (("main").toList)).2.1 (by decide)).1

/-- C10: for an invalid version string, `create_release_branch` prints the
validation error and returns normally, the dispatched `release` command then
exits with status 0, and the only git event of the whole run is the
constructor's read-only current-branch query. -/
theorem release_invalid_exits_zero (env : Env) (repo : Option PyStr) (v base : PyStr)
    (hv : versionRegexAccepts v = false) :
    (runRelease env repo v base).2 = 0
  ∧ Event.out (("❌ Version must follow semantic versioning format (x.y.z)").toList) ∈
      (runRelease env repo v base).1
  ∧ ∀ e ∈ (runRelease env repo v base).1, isGitEvent e = true → e = Event.git revAbbrevCmd := by
  have hsh := create_release_branch_rejected env v base hv
  have htr : runRelease env repo v base =
      ((getCurrentBranch env).1 ++ (create_release_branch env v base).1,
       exitCode (create_release_branch env v base).2) := rfl
  rw [htr, hsh, getCurrentBranch_fst]
  refine ⟨rfl, by simp, ?_⟩
  intro e he hgit
  simp only [List.cons_append, List.nil_append, List.mem_cons, List.not_mem_nil] at he
  rcases he with he | he | he | he
  · exact he
  · rw [he] at hgit; simp [isGitEvent] at hgit
  · rw [he] at hgit; simp [isGitEvent] at hgit
  · exact absurd he (by simp)

/-- C10 (witness): the invalid version `1.2` exits with status 0. -/
theorem release_invalid_exits_zero_w :
    (runRelease envAllOk none (("1.2").toList) (("main").toList)).2 = 0 :=
  (release_invalid_exits_zero envAllOk none (("1.2").toList) (("main").toList) (by decide)).1

theorem sync_rev_mem (env : Env) (cur : PyStr) (bArg : Option PyStr)
    (hf : env.gitOk fetchCmd = true) :
    Event.git (revParseOriginCmd (resolveBranch cur bArg)) ∈ (sync_with_remote env cur bArg).1 := by
  cases hr : env.gitOk (revParseOriginCmd (resolveBranch cur bArg)) with
  | true =>
    cases hp : env.gitOk (pullCmd (resolveBranch cur bArg)) with
    | true =>
      simp [sync_with_remote, emit, withGit, runGit_ok env _ hf,
        runGit_ok env _ hr, runGit_ok env _ hp]
    | false =>
      cases hpu : env.gitOk (pushUCmd (resolveBranch cur bArg)) with
      | true =>
        simp [sync_with_remote, emit, withGit, syncExceptBranch, runGit_ok env _ hf,
          runGit_ok env _ hr, runGit_fail env _ hp, runGit_ok env _ hpu]
      | false =>
        simp [sync_with_remote, emit, withGit, syncExceptBranch, runGit_ok env _ hf,
          runGit_ok env _ hr, runGit_fail env _ hp, runGit_fail env _ hpu]
  | false =>
    cases hpu : env.gitOk (pushUCmd (resolveBranch cur bArg)) with
    | true =>
      simp [sync_with_remote, emit, withGit, syncExceptBranch, runGit_ok env _ hf,
        runGit_fail env _ hr, runGit_ok env _ hpu]
    | false =>
      simp [sync_with_remote, emit, withGit, syncExceptBranch, runGit_ok env _ hf,
        runGit_fail env _ hr, runGit_fail env _ hpu]

theorem pushUCmd_ne_fetch (b : PyStr) : pushUCmd b ≠ fetchCmd := by
  intro h
  simp [pushUCmd, fetchCmd] at h

theorem pushUCmd_ne_rev (b b2 : PyStr) : pushUCmd b ≠ revParseOriginCmd b2 := by
  intro h
  simp [pushUCmd, revParseOriginCmd] at h

theorem pushUCmd_ne_pull (b b2 : PyStr) : pushUCmd b ≠ pullCmd b2 := by
  intro h
  simp [pushUCmd, pullCmd] at h

theorem pullCmd_ne_fetch (b : PyStr) : pullCmd b ≠ fetchCmd := by
  intro h
  simp [pullCmd, fetchCmd] at h

theorem pullCmd_ne_rev (b b2 : PyStr) : pullCmd b ≠ revParseOriginCmd b2 := by
  intro h
  simp [pullCmd, revParseOriginCmd] at h

theorem pullCmd_ne_pushU (b b2 : PyStr) : pullCmd b ≠ pushUCmd b2 := by
  intro h
  simp [pullCmd, pushUCmd] at h

/-- C7: a sync first fetches; it issues a pull for the branch exactly when
the `origin/<branch>` probe succeeds; when the probe succeeds and the pull
succeeds no upstream-tracking push is issued; when the probe fails the
remote counterpart is created by a push with upstream tracking; and an
absent branch argument behaves exactly like passing the construction-time
current branch. -/
theorem sync_with_remote_behavior (env : Env) (cur : PyStr) (bArg : Option PyStr) :
    (sync_with_remote env cur none = sync_with_remote env cur (some cur))
  ∧ (env.gitOk fetchCmd = true →
      ((Event.git (pullCmd (resolveBranch cur bArg)) ∈ (sync_with_remote env cur bArg).1) ↔
          env.gitOk (revParseOriginCmd (resolveBranch cur bArg)) = true)
    ∧ (env.gitOk (revParseOriginCmd (resolveBranch cur bArg)) = true →
        env.gitOk (pullCmd (resolveBranch cur bArg)) = true →
          Event.git (pushUCmd (resolveBranch cur bArg)) ∉ (sync_with_remote env cur bArg).1)
    ∧ (env.gitOk (revParseOriginCmd (resolveBranch cur bArg)) = false →
        Event.git (pushUCmd (resolveBranch cur bArg)) ∈ (sync_with_remote env cur bArg).1)) := by
  constructor
  · show sync_with_remote env cur none = sync_with_remote env cur (some cur)
    unfold sync_with_remote
    simp only [resolveBranch, ite_self]
  · intro hf
    refine ⟨?_, ?_, ?_⟩
    · cases hr : env.gitOk (revParseOriginCmd (resolveBranch cur bArg)) with
      | true =>
        simp only [iff_true]
        cases hp : env.gitOk (pullCmd (resolveBranch cur bArg)) with
        | true =>
          simp [sync_with_remote, emit, withGit, runGit_ok env _ hf,
            runGit_ok env _ hr, runGit_ok env _ hp]
        | false =>
          cases hpu : env.gitOk (pushUCmd (resolveBranch cur bArg)) with
          | true =>
            simp [sync_with_remote, emit, withGit, syncExceptBranch, runGit_ok env _ hf,
              runGit_ok env _ hr, runGit_fail env _ hp, runGit_ok env _ hpu]
          | false =>
            simp [sync_with_remote, emit, withGit, syncExceptBranch, runGit_ok env _ hf,
              runGit_ok env _ hr, runGit_fail env _ hp, runGit_fail env _ hpu]
      | false =>
        simp only [Bool.false_eq_true, iff_false]
        cases hpu : env.gitOk (pushUCmd (resolveBranch cur bArg)) with
        | true =>
          simp [sync_with_remote, emit, withGit, syncExceptBranch, runGit_ok env _ hf,
            runGit_fail env _ hr, runGit_ok env _ hpu, pullCmd_ne_fetch, pullCmd_ne_rev,
            pullCmd_ne_pushU]
        | false =>
          simp [sync_with_remote, emit, withGit, syncExceptBranch, runGit_ok env _ hf,
            runGit_fail env _ hr, runGit_fail env _ hpu, pullCmd_ne_fetch, pullCmd_ne_rev,
            pullCmd_ne_pushU]
    · intro hr hp
      simp [sync_with_remote, emit, withGit, runGit_ok env _ hf,
        runGit_ok env _ hr, runGit_ok env _ hp, pushUCmd_ne_fetch, pushUCmd_ne_rev,
        pushUCmd_ne_pull]
    · intro hr
      cases hpu : env.gitOk (pushUCmd (resolveBranch cur bArg)) with
      | true =>
        simp [sync_with_remote, emit, withGit, syncExceptBranch, runGit_ok env _ hf,
          runGit_fail env _ hr, runGit_ok env _ hpu]
      | false =>
        simp [sync_with_remote, emit, withGit, syncExceptBranch, runGit_ok env _ hf,
          runGit_fail env _ hr, runGit_fail env _ hpu]

/-- C7 (witness): with every command succeeding the pull-iff-remote-exists
equivalence holds at `main`; with only the `origin/topic` probe failing, the
upstream-tracking push for `topic` is issued. -/
theorem sync_with_remote_behavior_w :
    ((Event.git (pullCmd (resolveBranch (("main").toList) none)) ∈
        (sync_with_remote envAllOk (("main").toList) none).1) ↔
      envAllOk.gitOk (revParseOriginCmd (resolveBranch (("main").toList) none)) = true)
  ∧ Event.git (pushUCmd (resolveBranch (("main").toList) (some (("topic").toList)))) ∈
      (sync_with_remote envNoRemoteTopic (("main").toList) (some (("topic").toList))).1 :=
  ⟨((sync_with_remote_behavior envAllOk (("main").toList) none).2 rfl).1,
   ((sync_with_remote_behavior envNoRemoteTopic (("main").toList)
      (some (("topic").toList))).2 rfl).2.2 (by decide)⟩

/-- C9: when the get-current-branch subprocess fails, the lookup returns the
fallback `main` instead of failing, constructing the automator still returns
a value, and a sync without an explicit branch then probes the remote
counterpart of `main`. -/
theorem current_branch_fallback (env : Env) (repo : Option PyStr)
    (hfail : env.gitOk revAbbrevCmd = false) :
    (getCurrentBranch env).2 = ("main").toList
  ∧ (automatorInit env repo).2.current_branch = ("main").toList
  ∧ (env.gitOk fetchCmd = true →
      Event.git (revParseOriginCmd (("main").toList)) ∈ (runSyncCommand env repo none).1) := by
  have h1 : getCurrentBranch env = ([Event.git revAbbrevCmd], ("main").toList) := by
    unfold getCurrentBranch
    rw [hfail]
    rfl
  refine ⟨by rw [h1], ?_, ?_⟩
  · show (getCurrentBranch env).2 = ("main").toList
    rw [h1]
  · intro hf
    have h2 : runSyncCommand env repo none =
        ((getCurrentBranch env).1 ++ (sync_with_remote env (getCurrentBranch env).2 none).1,
          exitCode (sync_with_remote env (getCurrentBranch env).2 none).2) := rfl
    rw [h2, h1]
    simp only [List.mem_append]
    right
    exact sync_rev_mem env (("main").toList) none hf

/-- C9 (witness): in a world where only the current-branch query fails, the
lookup yields `main`. -/
theorem current_branch_fallback_w :
    (getCurrentBranch envNoHead).2 = ("main").toList :=
  (current_branch_fallback envNoHead none (by decide)).1

theorem withGit_ok {α : Type} (env : Env) (args : List PyStr)
    (k : PyStr → List Event × Option α) (h : env.gitOk args = true) :
    withGit env args k =
      (Event.git args :: (k (env.gitOut args)).1, (k (env.gitOut args)).2) := by
  unfold withGit
  rw [runGit_ok env _ h]
  rfl

theorem withGit_fail {α : Type} (env : Env) (args : List PyStr)
    (k : PyStr → List Event × Option α) (h : env.gitOk args = false) :
    withGit env args k = ([Event.git args,
      Event.out ((("Git command failed: ").toList) ++ renderCmd args),
      Event.out ((("Error: ").toList) ++ env.gitErr args)], none) := by
  unfold withGit
  rw [runGit_fail env _ h]

/-- C8: for a valid identifier, starting a feature branch issues, in this
order, exactly the four commands checkout-base, pull-base, create
`feature/<name>`, push-with-tracking; it returns normally; and replaying the
trace on any simulated state leaves `feature/<name>` checked out and present
on the remote. -/
theorem create_feature_branch_effect (env : Env) (st : GitState) (name base : PyStr)
    (_hv : validIdentifier name = true)
    (h1 : env.gitOk (checkoutCmd base) = true)
    (h2 : env.gitOk (pullCmd base) = true)
    (h3 : env.gitOk (checkoutBCmd ((("feature/").toList) ++ name)) = true)
    (h4 : env.gitOk (pushUCmd ((("feature/").toList) ++ name)) = true) :
    (create_feature_branch env name base).1.filter isGitEvent =
      [Event.git (checkoutCmd base), Event.git (pullCmd base),
       Event.git (checkoutBCmd ((("feature/").toList) ++ name)),
       Event.git (pushUCmd ((("feature/").toList) ++ name))]
  ∧ (create_feature_branch env name base).2 = some ()
  ∧ (runTrace st (create_feature_branch env name base).1).current =
      (("feature/").toList) ++ name
  ∧ (("feature/").toList) ++ name ∈
      (runTrace st (create_feature_branch env name base).1).remoteBranches := by
  have hsh : create_feature_branch env name base =
      ([Event.out ((("Creating feature branch: feature/").toList) ++ name),
        Event.git (checkoutCmd base), Event.git (pullCmd base),
        Event.git (checkoutBCmd ((("feature/").toList) ++ name)),
        Event.git (pushUCmd ((("feature/").toList) ++ name)),
        Event.out ((("✅ Feature branch \x27").toList) ++ ((("feature/").toList) ++ name) ++
          (("\x27 created and pushed to remote").toList)),
        Event.out (("🚀 You can now start working on your feature!").toList)], some ()) := by
    unfold create_feature_branch
    rw [withGit_ok env _ _ h1]
    rw [withGit_ok env _ _ h2]
    rw [withGit_ok env _ _ h3]
    rw [withGit_ok env _ _ h4]
    rfl
  have hstate : runTrace st (create_feature_branch env name base).1 =
      GitState.mk ((("feature/").toList) ++ name)
        (((("feature/").toList) ++ name) :: st.localBranches)
        (if (("feature/").toList) ++ name ∈ st.remoteBranches then st.remoteBranches
         else ((("feature/").toList) ++ name) :: st.remoteBranches) := by
    rw [hsh]
    rfl
  refine ⟨by rw [hsh]; rfl, by rw [hsh], by rw [hstate], ?_⟩
  rw [hstate]
  show (("feature/").toList) ++ name ∈
    (if (("feature/").toList) ++ name ∈ st.remoteBranches then st.remoteBranches
     else ((("feature/").toList) ++ name) :: st.remoteBranches)
  by_cases hm : (("feature/").toList) ++ name ∈ st.remoteBranches
  · rw [if_pos hm]
    exact hm
  · rw [if_neg hm]
    exact List.mem_cons_self _ _

/-- C8 (witness): starting feature `login` on a one-branch fixture leaves
`feature/login` checked out. -/
theorem create_feature_branch_effect_w :
    (runTrace (GitState.mk (("main").toList) [("main").toList] [("main").toList])
        (create_feature_branch envAllOk (("login").toList) (("main").toList)).1).current =
      (("feature/").toList) ++ (("login").toList) :=
  (create_feature_branch_effect envAllOk
    (GitState.mk (("main").toList) [("main").toList] [("main").toList])
    (("login").toList) (("main").toList) (by decide) rfl rfl rfl rfl).2.2.1

/-- C6: finishing a feature with a falsy repository identifier — absent or
the empty string, mirroring the source's truthiness gate — performs no
create-pull-request call under any command outcomes and, when the branch
commands succeed, prints the manual-instruction line; with a nonempty
identifier and the branch commands succeeding, exactly one
create-pull-request call is performed and its title is the feature name
prefixed by `Feature: ` — in particular the title contains the name. -/
theorem finish_feature_pr_behavior (env : Env) (name target r : PyStr) :
    ((finish_feature env none name target).1.countP isAws = 0)
  ∧ ((finish_feature env (some []) name target).1.countP isAws = 0)
  ∧ (env.gitOk (checkoutCmd ((("feature/").toList) ++ name)) = true →
     env.gitOk (pushCmd ((("feature/").toList) ++ name)) = true →
      (Event.out (("⚠️  Repository name not provided. Cannot create pull request automatically.").toList)
        ∈ (finish_feature env none name target).1)
    ∧ (r.isEmpty = false →
        (finish_feature env (some r) name target).1.filter isAws =
          [Event.aws ((("Feature: ").toList) ++ name) (prDescription name) r
            ((("refs/heads/").toList) ++ ((("feature/").toList) ++ name))
            ((("refs/heads/").toList) ++ target)]
        ∧ ∃ pre, (("Feature: ").toList) ++ name = pre ++ name)) := by
  refine ⟨?_, ?_, fun hco hpu => ⟨?_, fun hre => ⟨?_, ⟨(("Feature: ").toList), rfl⟩⟩⟩⟩
  · cases hco : env.gitOk (checkoutCmd ((("feature/").toList) ++ name)) with
    | false =>
      unfold finish_feature emit
      rw [withGit_fail env _ _ hco]
      rfl
    | true =>
      cases hpu : env.gitOk (pushCmd ((("feature/").toList) ++ name)) with
      | false =>
        unfold finish_feature emit
        rw [withGit_ok env _ _ hco, withGit_fail env _ _ hpu]
        rfl
      | true =>
        unfold finish_feature emit
        rw [withGit_ok env _ _ hco, withGit_ok env _ _ hpu]
        rfl
  · cases hco : env.gitOk (checkoutCmd ((("feature/").toList) ++ name)) with
    | false =>
      unfold finish_feature emit
      rw [withGit_fail env _ _ hco]
      rfl
    | true =>
      cases hpu : env.gitOk (pushCmd ((("feature/").toList) ++ name)) with
      | false =>
        unfold finish_feature emit
        rw [withGit_ok env _ _ hco, withGit_fail env _ _ hpu]
        rfl
      | true =>
        unfold finish_feature emit
        rw [withGit_ok env _ _ hco, withGit_ok env _ _ hpu]
        rfl
  · unfold finish_feature emit
    rw [withGit_ok env _ _ hco, withGit_ok env _ _ hpu]
    simp [finishManual]
  · unfold finish_feature emit
    rw [withGit_ok env _ _ hco, withGit_ok env _ _ hpu]
    have hif : ¬ (r.isEmpty = true) := by
      rw [hre]
      exact Bool.false_ne_true
    cases hpr : env.prOk with
    | true =>
      unfold create_pull_request
      rw [hpr]
      simp only [if_neg hif]
      rfl
    | false =>
      unfold create_pull_request
      rw [hpr]
      simp only [if_neg hif]
      rfl

/-- C6 (witness): with all commands succeeding and no repository name, the
manual-instruction line is printed. -/
theorem finish_feature_pr_behavior_w :
    Event.out (("⚠️  Repository name not provided. Cannot create pull request automatically.").toList)
      ∈ (finish_feature envAllOk none (("x").toList) (("main").toList)).1 :=
  ((finish_feature_pr_behavior envAllOk (("x").toList) (("main").toList) (("r").toList)).2.2
    rfl rfl).1

theorem finish_feature_prfail_eq (env : Env) (repo name target : PyStr)
    (hre : repo.isEmpty = false)
    (h1 : env.gitOk (checkoutCmd ((("feature/").toList) ++ name)) = true)
    (h2 : env.gitOk (pushCmd ((("feature/").toList) ++ name)) = true)
    (hpr : env.prOk = false) :
    finish_feature env (some repo) name target =
      ([Event.out ((("Finishing feature branch: ").toList) ++ ((("feature/").toList) ++ name)),
        Event.git (checkoutCmd ((("feature/").toList) ++ name)),
        Event.git (pushCmd ((("feature/").toList) ++ name)),
        Event.aws ((("Feature: ").toList) ++ name) (prDescription name) repo
          ((("refs/heads/").toList) ++ ((("feature/").toList) ++ name))
          ((("refs/heads/").toList) ++ target),
        Event.out ((("❌ Failed to create pull request: ").toList) ++ env.prErr)], some ()) := by
  unfold finish_feature emit
  rw [withGit_ok env _ _ h1, withGit_ok env _ _ h2]
  have hif : ¬ (repo.isEmpty = true) := by
    rw [hre]
    exact Bool.false_ne_true
  unfold create_pull_request
  rw [hpr]
  simp only [if_neg hif]
  rfl

/-- C4 (counterexample): with every git command succeeding and the
create-pull-request API call failing, finishing a feature performs the API
call, prints the failure message, and the process still exits with status 0
— an underlying API failure that does not terminate with a non-zero status. -/
theorem api_failure_exit_zero_cex :
    envPrFail.prOk = false
  ∧ (runFeatureFinish envPrFail (some (("demo-repo").toList)) (("x").toList)
      (("main").toList)).2 = 0
  ∧ (runFeatureFinish envPrFail (some (("demo-repo").toList)) (("x").toList)
      (("main").toList)).1.countP isAws = 1
  ∧ Event.out ((("❌ Failed to create pull request: ").toList) ++ (("AccessDenied").toList))
      ∈ (runFeatureFinish envPrFail (some (("demo-repo").toList)) (("x").toList)
          (("main").toList)).1 := by
  refine ⟨rfl, rfl, ?_, ?_⟩ <;> decide

theorem create_feature_branch_exit (env : Env) (name base : PyStr) :
    exitCode (create_feature_branch env name base).2 = 0 ↔
      (env.gitOk (checkoutCmd base) = true ∧ env.gitOk (pullCmd base) = true ∧
       env.gitOk (checkoutBCmd ((("feature/").toList) ++ name)) = true ∧
       env.gitOk (pushUCmd ((("feature/").toList) ++ name)) = true) := by
  cases h1 : env.gitOk (checkoutCmd base) with
  | false =>
    unfold create_feature_branch emit
    rw [withGit_fail env _ _ h1]
    simp [exitCode, h1]
  | true =>
    cases h2 : env.gitOk (pullCmd base) with
    | false =>
      unfold create_feature_branch emit
      rw [withGit_ok env _ _ h1, withGit_fail env _ _ h2]
      simp [exitCode, h1, h2]
    | true =>
      cases h3 : env.gitOk (checkoutBCmd ((("feature/").toList) ++ name)) with
      | false =>
        unfold create_feature_branch emit
        rw [withGit_ok env _ _ h1, withGit_ok env _ _ h2, withGit_fail env _ _ h3]
        simp [exitCode, h1, h2, h3]
      | true =>
        cases h4 : env.gitOk (pushUCmd ((("feature/").toList) ++ name)) with
        | false =>
          unfold create_feature_branch emit
          rw [withGit_ok env _ _ h1, withGit_ok env _ _ h2, withGit_ok env _ _ h3,
            withGit_fail env _ _ h4]
          simp [exitCode, h1, h2, h3, h4]
        | true =>
          unfold create_feature_branch emit
          rw [withGit_ok env _ _ h1, withGit_ok env _ _ h2, withGit_ok env _ _ h3,
            withGit_ok env _ _ h4]
          simp [exitCode, h1, h2, h3, h4]

theorem create_hotfix_branch_exit (env : Env) (name base : PyStr) :
    exitCode (create_hotfix_branch env name base).2 = 0 ↔
      (env.gitOk (checkoutCmd base) = true ∧ env.gitOk (pullCmd base) = true ∧
       env.gitOk (checkoutBCmd ((("hotfix/").toList) ++ name)) = true ∧
       env.gitOk (pushUCmd ((("hotfix/").toList) ++ name)) = true) := by
  cases h1 : env.gitOk (checkoutCmd base) with
  | false =>
    unfold create_hotfix_branch emit
    rw [withGit_fail env _ _ h1]
    simp [exitCode, h1]
  | true =>
    cases h2 : env.gitOk (pullCmd base) with
    | false =>
      unfold create_hotfix_branch emit
      rw [withGit_ok env _ _ h1, withGit_fail env _ _ h2]
      simp [exitCode, h1, h2]
    | true =>
      cases h3 : env.gitOk (checkoutBCmd ((("hotfix/").toList) ++ name)) with
      | false =>
        unfold create_hotfix_branch emit
        rw [withGit_ok env _ _ h1, withGit_ok env _ _ h2, withGit_fail env _ _ h3]
        simp [exitCode, h1, h2, h3]
      | true =>
        cases h4 : env.gitOk (pushUCmd ((("hotfix/").toList) ++ name)) with
        | false =>
          unfold create_hotfix_branch emit
          rw [withGit_ok env _ _ h1, withGit_ok env _ _ h2, withGit_ok env _ _ h3,
            withGit_fail env _ _ h4]
          simp [exitCode, h1, h2, h3, h4]
        | true =>
          unfold create_hotfix_branch emit
          rw [withGit_ok env _ _ h1, withGit_ok env _ _ h2, withGit_ok env _ _ h3,
            withGit_ok env _ _ h4]
          simp [exitCode, h1, h2, h3, h4]

theorem finish_feature_exit (env : Env) (rn : Option PyStr) (name target : PyStr) :
    exitCode (finish_feature env rn name target).2 = 0 ↔
      (env.gitOk (checkoutCmd ((("feature/").toList) ++ name)) = true ∧
       env.gitOk (pushCmd ((("feature/").toList) ++ name)) = true) := by
  cases h1 : env.gitOk (checkoutCmd ((("feature/").toList) ++ name)) with
  | false =>
    unfold finish_feature emit
    rw [withGit_fail env _ _ h1]
    simp [exitCode, h1]
  | true =>
    cases h2 : env.gitOk (pushCmd ((("feature/").toList) ++ name)) with
    | false =>
      unfold finish_feature emit
      rw [withGit_ok env _ _ h1, withGit_fail env _ _ h2]
      simp [exitCode, h1, h2]
    | true =>
      unfold finish_feature emit
      rw [withGit_ok env _ _ h1, withGit_ok env _ _ h2]
      cases rn with
      | none => simp [finishManual, exitCode, h1, h2]
      | some r =>
        by_cases hre : r.isEmpty = true
        · simp [hre, finishManual, exitCode, h1, h2]
        · cases hpr : env.prOk with
          | true => simp [hre, create_pull_request, hpr, exitCode, h1, h2]
          | false => simp [hre, create_pull_request, hpr, exitCode, h1, h2]

theorem create_release_branch_exit (env : Env) (v base : PyStr)
    (hv : versionRegexAccepts v = true) :
    exitCode (create_release_branch env v base).2 = 0 ↔
      (env.gitOk (checkoutCmd base) = true ∧ env.gitOk (pullCmd base) = true ∧
       env.gitOk (checkoutBCmd ((("release/").toList) ++ v)) = true ∧
       env.gitOk addCmd = true ∧ env.gitOk (commitCmd v) = true ∧
       env.gitOk (pushUCmd ((("release/").toList) ++ v)) = true) := by
  unfold create_release_branch emit
  rw [hv]
  simp only [Bool.not_true]
  cases h1 : env.gitOk (checkoutCmd base) with
  | false =>
    rw [withGit_fail env _ _ h1]
    simp [exitCode, h1]
  | true =>
    cases h2 : env.gitOk (pullCmd base) with
    | false =>
      rw [withGit_ok env _ _ h1, withGit_fail env _ _ h2]
      simp [exitCode, h1, h2]
    | true =>
      cases h3 : env.gitOk (checkoutBCmd ((("release/").toList) ++ v)) with
      | false =>
        rw [withGit_ok env _ _ h1, withGit_ok env _ _ h2, withGit_fail env _ _ h3]
        simp [exitCode, h1, h2, h3]
      | true =>
        cases h4 : env.gitOk addCmd with
        | false =>
          rw [withGit_ok env _ _ h1, withGit_ok env _ _ h2, withGit_ok env _ _ h3,
            withGit_fail env _ _ h4]
          simp [prepend, exitCode, h1, h2, h3, h4]
        | true =>
          cases h5 : env.gitOk (commitCmd v) with
          | false =>
            rw [withGit_ok env _ _ h1, withGit_ok env _ _ h2, withGit_ok env _ _ h3,
              withGit_ok env _ _ h4, withGit_fail env _ _ h5]
            simp [prepend, exitCode, h1, h2, h3, h4, h5]
          | true =>
            cases h6 : env.gitOk (pushUCmd ((("release/").toList) ++ v)) with
            | false =>
              rw [withGit_ok env _ _ h1, withGit_ok env _ _ h2, withGit_ok env _ _ h3,
                withGit_ok env _ _ h4, withGit_ok env _ _ h5, withGit_fail env _ _ h6]
              simp [prepend, exitCode, h1, h2, h3, h4, h5, h6]
            | true =>
              rw [withGit_ok env _ _ h1, withGit_ok env _ _ h2, withGit_ok env _ _ h3,
                withGit_ok env _ _ h4, withGit_ok env _ _ h5, withGit_ok env _ _ h6]
              simp [prepend, exitCode, h1, h2, h3, h4, h5, h6]


theorem clean_eq_ok (env : Env) (dry : Bool) (hm : env.gitOk mergedCmd = true) :
    clean_merged_branches env dry =
      (Event.out (("🧹 Cleaning up merged branches...").toList) ::
        Event.git mergedCmd :: (cleanAfterList env dry (env.gitOut mergedCmd)).1,
       (cleanAfterList env dry (env.gitOut mergedCmd)).2) := by
  unfold clean_merged_branches emit
  rw [withGit_ok env _ _ hm]

theorem clean_eq_fail (env : Env) (dry : Bool) (hm : env.gitOk mergedCmd = false) :
    clean_merged_branches env dry =
      ([Event.out (("🧹 Cleaning up merged branches...").toList),
        Event.git mergedCmd,
        Event.out ((("Git command failed: ").toList) ++ renderCmd mergedCmd),
        Event.out ((("Error: ").toList) ++ env.gitErr mergedCmd)], none) := by
  unfold clean_merged_branches emit
  rw [withGit_fail env _ _ hm]

theorem cleanAfterList_empty (env : Env) (dry : Bool) (out : PyStr)
    (he : (mergedCandidates out).isEmpty = true) :
    cleanAfterList env dry out =
      ([Event.out (("✅ No merged branches to clean up").toList)], some ()) := by
  unfold cleanAfterList
  simp [he]

theorem cleanAfterList_dry (env : Env) (out : PyStr)
    (he : (mergedCandidates out).isEmpty = false) :
    cleanAfterList env true out =
      (Event.out ((("Found ").toList) ++ (toString (mergedCandidates out).length).toList ++
          ((" merged branches:").toList)) ::
        (mergedCandidates out).map (fun b => Event.out ((("  - ").toList) ++ b)) ++
        [Event.out (("🔍 This is a dry run. Use --no-dry-run to actually delete branches.").toList)],
       some ()) := by
  unfold cleanAfterList
  simp [he]

theorem cleanAfterList_nodry (env : Env) (out : PyStr)
    (he : (mergedCandidates out).isEmpty = false) :
    cleanAfterList env false out =
      (Event.out ((("Found ").toList) ++ (toString (mergedCandidates out).length).toList ++
          ((" merged branches:").toList)) ::
        (mergedCandidates out).map (fun b => Event.out ((("  - ").toList) ++ b)) ++
        (mergedCandidates out).flatMap (localDeleteStep env) ++
        (mergedCandidates out).flatMap (remoteDeleteStep env),
       some ()) := by
  unfold cleanAfterList
  simp [he]

theorem count_out_map (pre : PyStr) (l : List PyStr) (a : List PyStr) :
    (l.map (fun c => Event.out (pre ++ c))).count (Event.git a) = 0 := by
  rw [List.count_eq_zero]
  intro hmem
  simp [List.mem_map] at hmem

/-- C5: cleanup in dry-run mode never issues a deletion command; with
dry-run disabled, for every branch the number of local-deletion attempts and
of remote-deletion attempts each equals the number of times the branch is
listed (one per listed merged branch) — with no assumption on whether any
deletion succeeds, so one failure cannot suppress the other attempts — and
the operation returns normally. -/
theorem cleanup_deletion_behavior (env : Env) (b : PyStr) :
    (∀ e ∈ (clean_merged_branches env true).1, isDeleteCmd e = false)
  ∧ (env.gitOk mergedCmd = true →
      ((clean_merged_branches env false).1.count (Event.git (delLocalCmd b)) =
          (candidatesOf env).count b)
      ∧ ((clean_merged_branches env false).1.count (Event.git (delRemoteCmd b)) =
          (candidatesOf env).count b)
      ∧ (clean_merged_branches env false).2 = some ()) := by
  constructor
  · intro e he
    cases e with
    | out m => rfl
    | aws t d r s2 d2 => rfl
    | fileWrite n c => rfl
    | git args =>
      cases hm : env.gitOk mergedCmd with
      | false =>
        rw [clean_eq_fail env true hm] at he
        simp at he
        subst he
        decide
      | true =>
        rw [clean_eq_ok env true hm] at he
        cases hemp : (mergedCandidates (env.gitOut mergedCmd)).isEmpty with
        | true =>
          rw [cleanAfterList_empty env true _ hemp] at he
          simp at he
          subst he
          decide
        | false =>
          rw [cleanAfterList_dry env _ hemp] at he
          simp at he
          subst he
          decide
  · intro hm
    have hne1 : ∀ m, Event.git (delLocalCmd b) ≠ Event.out m := fun m h => Event.noConfusion h
    have hne2 : Event.git (delLocalCmd b) ≠ Event.git mergedCmd := by
      intro h
      simp [delLocalCmd, mergedCmd] at h
    have hne3 : ∀ m, Event.git (delRemoteCmd b) ≠ Event.out m := fun m h => Event.noConfusion h
    have hne4 : Event.git (delRemoteCmd b) ≠ Event.git mergedCmd := by
      intro h
      simp [delRemoteCmd, mergedCmd] at h
    have hco := clean_eq_ok env false hm
    cases hemp : (mergedCandidates (env.gitOut mergedCmd)).isEmpty with
    | true =>
      have hempty : mergedCandidates (env.gitOut mergedCmd) = [] := List.isEmpty_iff.1 hemp
      simp only [hco, cleanAfterList_empty env false _ hemp]
      unfold candidatesOf
      rw [hempty]
      refine ⟨?_, ?_, trivial⟩
      · rw [List.count_cons_of_ne (hne1 _), List.count_cons_of_ne hne2,
          List.count_cons_of_ne (hne1 _), List.count_nil]
        rfl
      · rw [List.count_cons_of_ne (hne3 _), List.count_cons_of_ne hne4,
          List.count_cons_of_ne (hne3 _), List.count_nil]
        rfl
    | false =>
      simp only [hco, cleanAfterList_nodry env _ hemp]
      unfold candidatesOf
      refine ⟨?_, ?_, trivial⟩
      · rw [List.count_cons_of_ne (hne1 _), List.count_cons_of_ne hne2,
          List.count_append, List.count_append, List.count_cons_of_ne (hne1 _),
          count_out_map, flatMap_count_local, flatMap_remote_count_local]
        omega
      · rw [List.count_cons_of_ne (hne3 _), List.count_cons_of_ne hne4,
          List.count_append, List.count_append, List.count_cons_of_ne (hne3 _),
          count_out_map, flatMap_count_remote, flatMap_local_count_remote]
        omega

/-- C5 (witness): on a fixture listing `old/z` and `dev`, disabling dry-run
issues exactly one local-deletion attempt for `old/z` and returns normally. -/
theorem cleanup_deletion_behavior_w :
    ((clean_merged_branches envTwoMerged false).1.count
        (Event.git (delLocalCmd (("old/z").toList))) =
      (candidatesOf envTwoMerged).count (("old/z").toList))
  ∧ (clean_merged_branches envTwoMerged false).2 = some () :=
  ⟨((cleanup_deletion_behavior envTwoMerged (("old/z").toList)).2 rfl).1,
   ((cleanup_deletion_behavior envTwoMerged (("old/z").toList)).2 rfl).2.2⟩

/-- C2 (counterexample): in a world whose merged-branch listing contains
`maintenance/x` — a listed merged branch that is neither the main line nor
the checked-out branch — the cleanup candidate list omits it: the exclusion
tests for the substring `main` in the listing line rather than for the main
line itself. -/
theorem merged_candidates_maintenance_cex :
    (∃ line ∈ splitChar '\x0A' (envMaintenance.gitOut mergedCmd),
      pyStrip line = ("maintenance/x").toList
      ∧ pyStrip line ≠ ("main").toList
      ∧ startsWithChar '*' (pyStrip line) = false)
  ∧ (("maintenance/x").toList ∉ candidatesOf envMaintenance) := by
  decide

/-- C2 (amended): the cleanup candidate list consists of the stripped
nonempty lines of the merged-branch listing, excluding the line marked `*`
(the currently checked-out branch) and every line containing the substring
`main` — this always excludes the main line itself, but also excludes other
branches whose names contain `main`. -/
theorem merged_candidates_characterization (env : Env) (b : PyStr) :
    (b ∈ candidatesOf env ↔
      ∃ line ∈ splitChar '\x0A' (env.gitOut mergedCmd),
        pyStrip line = b ∧ b ≠ [] ∧ startsWithChar '*' b = false
        ∧ pyIn (("main").toList) line = false)
  ∧ ("main").toList ∉ candidatesOf env := by
  constructor
  · unfold candidatesOf mergedCandidates
    rw [List.mem_filterMap]
    constructor
    · rintro ⟨line, hline, hsome⟩
      by_cases hk : keepBranch line = true
      · rw [if_pos hk] at hsome
        have hb : pyStrip line = b := Option.some.inj hsome
        unfold keepBranch at hk
        simp only [Bool.and_eq_true, Bool.not_eq_true'] at hk
        refine ⟨line, hline, hb, ?_, ?_, hk.2⟩
        · intro he
          rw [hb, he] at hk
          simp at hk
        · rw [← hb]
          exact hk.1.2
      · rw [if_neg hk] at hsome
        exact absurd hsome (by simp)
    · rintro ⟨line, hline, hb, hne, hstar, hmain⟩
      refine ⟨line, hline, ?_⟩
      have hk : keepBranch line = true := by
        unfold keepBranch
        simp only [Bool.and_eq_true, Bool.not_eq_true']
        refine ⟨⟨?_, by rw [hb]; exact hstar⟩, hmain⟩
        cases hcase : pyStrip line with
        | nil => rw [hb] at hcase; exact absurd hcase hne
        | cons x xs => rfl
      rw [if_pos hk, hb]
  · intro hmem
    unfold candidatesOf mergedCandidates at hmem
    rw [List.mem_filterMap] at hmem
    obtain ⟨line, hline, hsome⟩ := hmem
    by_cases hk : keepBranch line = true
    · rw [if_pos hk] at hsome
      have hstrip : pyStrip line = ("main").toList := Option.some.inj hsome
      have hin := pyIn_pyStrip line
      rw [hstrip] at hin
      unfold keepBranch at hk
      simp only [Bool.and_eq_true, Bool.not_eq_true'] at hk
      rw [hk.2] at hin
      exact Bool.noConfusion hin
    · rw [if_neg hk] at hsome
      exact absurd hsome (by simp)

theorem healthy_ne_warning : ("healthy").toList ≠ ("warning").toList := by
  decide

/-- C1 (counterexample): a clean repository with one tracked 20 MB file —
no uncommitted changes, no unpushed commits, one oversized tracked file —
yields a report whose status is `healthy`, so the claimed equivalence
between `warning` and the three-signal disjunction fails on the large-file
signal. -/
theorem health_status_iff_cex :
    statusOfRun envLargeFile = some (("healthy").toList)
  ∧ uncommittedSignal envLargeFile = false
  ∧ unpushedSignal envLargeFile = false
  ∧ largeFileSignal envLargeFile = true := by
  refine ⟨?_, ?_, ?_, ?_⟩ <;> decide

theorem healthBody_status (env : Env) (out1 : PyStr) :
    ∃ rep : HealthReport, (healthBody env out1).2 = some rep
      ∧ (rep.status = ("warning").toList ↔
          ((pyStrip out1).isEmpty = false ∨
           (env.gitOk logCmd = true ∧ 0 < unpushedCountOf (env.gitOut logCmd)))) := by
  cases hl : env.gitOk logCmd with
  | true =>
    simp only [healthBody, runGit_ok env _ hl]
    refine ⟨_, rfl, ?_⟩
    by_cases hu : (pyStrip out1).isEmpty
    · by_cases hn : 0 < unpushedCountOf (env.gitOut logCmd)
      · simp [hu, hn]
      · simp [hu, hn, healthy_ne_warning]
    · by_cases hn : 0 < unpushedCountOf (env.gitOut logCmd)
      · simp [hu, hn]
      · simp [hu, hn]
  | false =>
    simp only [healthBody, runGit_fail env _ hl]
    refine ⟨_, rfl, ?_⟩
    by_cases hu : (pyStrip out1).isEmpty
    · simp [hu, healthy_ne_warning, hl]
    · simp [hu, hl]

/-- C1 (amended): the returned report's status is `warning` if and only if
uncommitted working-tree changes are present or the unpushed-commit query
succeeded with a positive count; tracked files exceeding 10 MB add an issue
and a recommendation but never change the status. -/
theorem health_status_amended (env : Env) (r : HealthReport)
    (h : (repository_health_check env).2 = some r) :
    (r.status = ("warning").toList ↔
      (uncommittedSignal env = true ∨ unpushedSignal env = true)) := by
  cases hp : env.gitOk statusCmd with
  | false =>
    have hnone : (repository_health_check env).2 = none := by
      unfold repository_health_check emit
      rw [withGit_fail env _ _ hp]
    rw [hnone] at h
    exact absurd h (by simp)
  | true =>
    obtain ⟨rep, hrep, hiff⟩ := healthBody_status env (env.gitOut statusCmd)
    have hsnd : (repository_health_check env).2 = (healthBody env (env.gitOut statusCmd)).2 := by
      unfold repository_health_check emit
      rw [withGit_ok env _ _ hp]
    rw [hsnd, hrep] at h
    have hr : rep = r := Option.some.inj h
    subst hr
    rw [hiff]
    unfold uncommittedSignal unpushedSignal
    constructor
    · rintro (hu | ⟨hl, hn⟩)
      · exact Or.inl (by rw [hu]; rfl)
      · refine Or.inr ?_
        rw [hl]
        simp [hn]
    · rintro (hu | hup)
      · left
        simpa using hu
      · right
        simp only [Bool.and_eq_true, decide_eq_true_eq] at hup
        exact hup

/-- C1 (witness): the amended equivalence applied to the report of a fully
clean repository. -/
theorem health_status_amended_w :
    ((HealthReport.mk (("healthy").toList) [] [] (some 0) none none).status =
        ("warning").toList ↔
      (uncommittedSignal envAllOk = true ∨ unpushedSignal envAllOk = true)) :=
  health_status_amended envAllOk
    (HealthReport.mk (("healthy").toList) [] [] (some 0) none none) (by decide)

/-- C2 (witness): on the two-branch fixture the main line is excluded. -/
theorem merged_candidates_characterization_w :
    ("main").toList ∉ candidatesOf envTwoMerged :=
  (merged_candidates_characterization envTwoMerged []).2

theorem cleanAfterList_snd (env : Env) (dry : Bool) (out : PyStr) :
    (cleanAfterList env dry out).2 = some () := by
  unfold cleanAfterList
  by_cases he : (mergedCandidates out).isEmpty = true
  · simp [he]
  · cases dry <;> simp [he]

theorem clean_merged_branches_exit (env : Env) (dry : Bool) :
    exitCode (clean_merged_branches env dry).2 = 0 ↔ env.gitOk mergedCmd = true := by
  cases hm : env.gitOk mergedCmd with
  | true =>
    rw [clean_eq_ok env dry hm]
    simp [cleanAfterList_snd, exitCode]
  | false =>
    rw [clean_eq_fail env dry hm]
    simp [exitCode]

theorem health_exit (env : Env) (repo : Option PyStr) :
    (runHealth env repo).2 = 0 ↔ env.gitOk statusCmd = true := by
  show (match (repository_health_check env).2 with | some _ => 0 | none => 1) = 0 ↔
    env.gitOk statusCmd = true
  cases hp : env.gitOk statusCmd with
  | true =>
    obtain ⟨rep, hrep, _⟩ := healthBody_status env (env.gitOut statusCmd)
    have hsnd : (repository_health_check env).2 = (healthBody env (env.gitOut statusCmd)).2 := by
      unfold repository_health_check emit
      rw [withGit_ok env _ _ hp]
    rw [hsnd, hrep]
    simp
  | false =>
    have hnone : (repository_health_check env).2 = none := by
      unfold repository_health_check emit
      rw [withGit_fail env _ _ hp]
    rw [hnone]
    simp

theorem sync_with_remote_exit (env : Env) (cur : PyStr) (bArg : Option PyStr) :
    exitCode (sync_with_remote env cur bArg).2 = 0 ↔
      (env.gitOk fetchCmd = true ∧
        ((env.gitOk (revParseOriginCmd (resolveBranch cur bArg)) = true ∧
          env.gitOk (pullCmd (resolveBranch cur bArg)) = true) ∨
         env.gitOk (pushUCmd (resolveBranch cur bArg)) = true)) := by
  cases hf : env.gitOk fetchCmd with
  | false =>
    simp [sync_with_remote, emit, withGit, runGit_fail env _ hf, exitCode, hf]
  | true =>
    cases hr : env.gitOk (revParseOriginCmd (resolveBranch cur bArg)) with
    | true =>
      cases hp : env.gitOk (pullCmd (resolveBranch cur bArg)) with
      | true =>
        simp [sync_with_remote, emit, withGit, runGit_ok env _ hf, runGit_ok env _ hr,
          runGit_ok env _ hp, exitCode, hr, hp]
      | false =>
        cases hpu : env.gitOk (pushUCmd (resolveBranch cur bArg)) with
        | true =>
          simp [sync_with_remote, emit, withGit, syncExceptBranch, runGit_ok env _ hf,
            runGit_ok env _ hr, runGit_fail env _ hp, runGit_ok env _ hpu, exitCode,
            hr, hp, hpu]
        | false =>
          simp [sync_with_remote, emit, withGit, syncExceptBranch, runGit_ok env _ hf,
            runGit_ok env _ hr, runGit_fail env _ hp, runGit_fail env _ hpu, exitCode,
            hr, hp, hpu]
    | false =>
      cases hpu : env.gitOk (pushUCmd (resolveBranch cur bArg)) with
      | true =>
        simp [sync_with_remote, emit, withGit, syncExceptBranch, runGit_ok env _ hf,
          runGit_fail env _ hr, runGit_ok env _ hpu, exitCode, hr, hpu]
      | false =>
        simp [sync_with_remote, emit, withGit, syncExceptBranch, runGit_ok env _ hf,
          runGit_fail env _ hr, runGit_fail env _ hpu, exitCode, hr, hpu]

/-- C4 (amended): two-tier error handling. Tier (a): a failed git command
always prints its two error lines (failed argv and stderr) before raising
the exit, and in every fatal context this aborts the whole run — each
dispatched operation exits with status 0 exactly when the git commands it
reaches all succeed, and with status 1 otherwise: feature start and hotfix
(their four commands), feature finish (its two branch commands), release
creation once the version is accepted (its six commands), cleanup (the
listing query; the per-branch deletions are best-effort), health (the
porcelain-status query; the other signals are best-effort), and sync (the
fetch, then probe-and-pull or the creating push); for the feature-start
flow the failed command's error line is moreover in the run's trace at
whichever command fails first.  Tier (b): a create-pull-request API failure
is caught inside the operation — the error line is printed and the process
exits with status 0. -/
theorem error_handling_two_tier (env : Env) (repo : Option PyStr) (dry : Bool)
    (bArg : Option PyStr) (name base target v rp : PyStr) :
    (∀ args, env.gitOk args = false →
      runGit env args = ([Event.git args,
        Event.out ((("Git command failed: ").toList) ++ renderCmd args),
        Event.out ((("Error: ").toList) ++ env.gitErr args)], none))
  ∧ ((runFeatureStart env repo name base).2 = 0 ↔
      (env.gitOk (checkoutCmd base) = true ∧ env.gitOk (pullCmd base) = true ∧
       env.gitOk (checkoutBCmd ((("feature/").toList) ++ name)) = true ∧
       env.gitOk (pushUCmd ((("feature/").toList) ++ name)) = true))
  ∧ ((runHotfix env repo name base).2 = 0 ↔
      (env.gitOk (checkoutCmd base) = true ∧ env.gitOk (pullCmd base) = true ∧
       env.gitOk (checkoutBCmd ((("hotfix/").toList) ++ name)) = true ∧
       env.gitOk (pushUCmd ((("hotfix/").toList) ++ name)) = true))
  ∧ ((runFeatureFinish env repo name target).2 = 0 ↔
      (env.gitOk (checkoutCmd ((("feature/").toList) ++ name)) = true ∧
       env.gitOk (pushCmd ((("feature/").toList) ++ name)) = true))
  ∧ (versionRegexAccepts v = true →
      ((runRelease env repo v base).2 = 0 ↔
        (env.gitOk (checkoutCmd base) = true ∧ env.gitOk (pullCmd base) = true ∧
         env.gitOk (checkoutBCmd ((("release/").toList) ++ v)) = true ∧
         env.gitOk addCmd = true ∧ env.gitOk (commitCmd v) = true ∧
         env.gitOk (pushUCmd ((("release/").toList) ++ v)) = true)))
  ∧ ((runCleanup env repo dry).2 = 0 ↔ env.gitOk mergedCmd = true)
  ∧ ((runHealth env repo).2 = 0 ↔ env.gitOk statusCmd = true)
  ∧ ((runSyncCommand env repo bArg).2 = 0 ↔
      (env.gitOk fetchCmd = true ∧
        ((env.gitOk (revParseOriginCmd (resolveBranch (getCurrentBranch env).2 bArg)) = true ∧
          env.gitOk (pullCmd (resolveBranch (getCurrentBranch env).2 bArg)) = true) ∨
         env.gitOk (pushUCmd (resolveBranch (getCurrentBranch env).2 bArg)) = true)))
  ∧ (env.gitOk (checkoutCmd base) = false →
      Event.out ((("Git command failed: ").toList) ++ renderCmd (checkoutCmd base)) ∈
        (runFeatureStart env repo name base).1)
  ∧ (env.gitOk (checkoutCmd base) = true → env.gitOk (pullCmd base) = false →
      Event.out ((("Git command failed: ").toList) ++ renderCmd (pullCmd base)) ∈
        (runFeatureStart env repo name base).1)
  ∧ (env.gitOk (checkoutCmd base) = true → env.gitOk (pullCmd base) = true →
     env.gitOk (checkoutBCmd ((("feature/").toList) ++ name)) = false →
      Event.out ((("Git command failed: ").toList) ++
          renderCmd (checkoutBCmd ((("feature/").toList) ++ name))) ∈
        (runFeatureStart env repo name base).1)
  ∧ (env.gitOk (checkoutCmd base) = true → env.gitOk (pullCmd base) = true →
     env.gitOk (checkoutBCmd ((("feature/").toList) ++ name)) = true →
     env.gitOk (pushUCmd ((("feature/").toList) ++ name)) = false →
      Event.out ((("Git command failed: ").toList) ++
          renderCmd (pushUCmd ((("feature/").toList) ++ name))) ∈
        (runFeatureStart env repo name base).1)
  ∧ ((∀ args, env.gitOk args = true) → env.prOk = false → rp.isEmpty = false →
      (runFeatureFinish env (some rp) name target).2 = 0
      ∧ Event.out ((("❌ Failed to create pull request: ").toList) ++ env.prErr) ∈
          (runFeatureFinish env (some rp) name target).1) := by
  refine ⟨fun args h => runGit_fail env args h, ?_, ?_, ?_, ?_, ?_, ?_, ?_, ?_, ?_, ?_, ?_, ?_⟩
  · show exitCode (create_feature_branch env name base).2 = 0 ↔ _
    exact create_feature_branch_exit env name base
  · show exitCode (create_hotfix_branch env name base).2 = 0 ↔ _
    exact create_hotfix_branch_exit env name base
  · show exitCode (finish_feature env repo name target).2 = 0 ↔ _
    exact finish_feature_exit env repo name target
  · intro hv
    show exitCode (create_release_branch env v base).2 = 0 ↔ _
    exact create_release_branch_exit env v base hv
  · show exitCode (clean_merged_branches env dry).2 = 0 ↔ _
    exact clean_merged_branches_exit env dry
  · exact health_exit env repo
  · show exitCode (sync_with_remote env (getCurrentBranch env).2 bArg).2 = 0 ↔ _
    exact sync_with_remote_exit env (getCurrentBranch env).2 bArg
  · intro hco
    show _ ∈ (getCurrentBranch env).1 ++ (create_feature_branch env name base).1
    simp only [List.mem_append]
    right
    unfold create_feature_branch emit
    rw [withGit_fail env _ _ hco]
    simp
  · intro hco hpl
    show _ ∈ (getCurrentBranch env).1 ++ (create_feature_branch env name base).1
    simp only [List.mem_append]
    right
    unfold create_feature_branch emit
    rw [withGit_ok env _ _ hco, withGit_fail env _ _ hpl]
    simp
  · intro hco hpl hcb
    show _ ∈ (getCurrentBranch env).1 ++ (create_feature_branch env name base).1
    simp only [List.mem_append]
    right
    unfold create_feature_branch emit
    rw [withGit_ok env _ _ hco, withGit_ok env _ _ hpl, withGit_fail env _ _ hcb]
    simp
  · intro hco hpl hcb hpsh
    show _ ∈ (getCurrentBranch env).1 ++ (create_feature_branch env name base).1
    simp only [List.mem_append]
    right
    unfold create_feature_branch emit
    rw [withGit_ok env _ _ hco, withGit_ok env _ _ hpl, withGit_ok env _ _ hcb,
      withGit_fail env _ _ hpsh]
    simp
  · intro hall hpr hre
    have hff := finish_feature_prfail_eq env rp name target hre
      (hall (checkoutCmd ((("feature/").toList) ++ name)))
      (hall (pushCmd ((("feature/").toList) ++ name))) hpr
    constructor
    · show exitCode (finish_feature env (some rp) name target).2 = 0
      rw [hff]
      rfl
    · show _ ∈ (getCurrentBranch env).1 ++ (finish_feature env (some rp) name target).1
      rw [hff]
      simp

/-- C4 (witness): with only `checkout main` failing, the feature-start run
shows the failed command's error line; with every git command succeeding and
the pull-request creation failing, the finish run exits with status 0. -/
theorem error_handling_two_tier_w :
    (Event.out ((("Git command failed: ").toList) ++ renderCmd (checkoutCmd (("main").toList)))
      ∈ (runFeatureStart envCheckoutFails none (("x").toList) (("main").toList)).1)
  ∧ (runFeatureFinish envPrFail (some (("r").toList)) (("x").toList)
      (("main").toList)).2 = 0 := by
  have ht := error_handling_two_tier envCheckoutFails none false none (("x").toList)
    (("main").toList) (("main").toList) (("1.2.3").toList) (("r").toList)
  have hp := error_handling_two_tier envPrFail none false none (("x").toList)
    (("main").toList) (("main").toList) (("1.2.3").toList) (("r").toList)
  exact ⟨ht.2.2.2.2.2.2.2.2.1 (by decide),
         (hp.2.2.2.2.2.2.2.2.2.2.2.2 (fun args => rfl) rfl rfl).1⟩
